import Mathlib

/-!
# Verification of the CV template editor (`cv_editor.py`)

A shallow embedding of the HTML-tree manipulations performed by
`CVEditor` in `cv_editor.py`, built on BeautifulSoup.  The document is
modelled as a rose tree of elements and text nodes; BeautifulSoup's
`find` / `find_all` (document-order, i.e. pre-order, search of
descendants), `insert_before`, `append`, `decompose`, `.string`
assignment and attribute assignment are modelled as pure functions on
that tree.  Python strings are Lean `String`s; `str.strip()` is
modelled by `pystrip`; substring containment (`in`) by `strContains`;
Python truthiness of a string (resp. list) is emptiness testing.

Fallible operations (which can raise in Python) return `Option`.
-/

/-- Python whitespace characters recognised by `str.strip()` (the ASCII
ones; the documents and inputs considered here contain no exotic
Unicode spacing). -/
def isSpaceChar (c : Char) : Bool :=
  c == ' ' || c == '\t' || c == '\n' || c == '\r' || c == '\x0b' || c == '\x0c'

/-- Python `str.strip()`: remove leading and trailing whitespace. -/
def pystrip (s : String) : String :=
  ⟨((s.toList.dropWhile isSpaceChar).reverse.dropWhile isSpaceChar).reverse⟩

/-- Does the character list start with the given pattern? -/
def chStarts : List Char → List Char → Bool
  | [], _ => true
  | _ :: _, [] => false
  | p :: ps, c :: cs => p == c && chStarts ps cs

/-- Does the character list contain the pattern as a contiguous run? -/
def chContains : List Char → List Char → Bool
  | pat, [] => pat.isEmpty
  | pat, c :: cs => chStarts pat (c :: cs) || chContains pat cs

/-- Python `pat in s` on strings: substring containment. -/
def strContains (s pat : String) : Bool :=
  chContains pat.toList s.toList

mutual
/-- A node of the parsed HTML document: either a text node
(`NavigableString`) or an element with a tag name, a list of CSS
classes (the `class` attribute), the remaining attributes, and
children. -/
inductive Node where
  | text (s : String) : Node
  | elem (tag : String) (classes : List String)
      (attrs : List (String × String)) (children : Nodes) : Node

/-- A list of sibling nodes (mutual with `Node`). -/
inductive Nodes where
  | nil : Nodes
  | cons (n : Node) (ns : Nodes) : Nodes
end

/-- Build a `Nodes` sibling list from a Lean list. -/
def ofList : List Node → Nodes
  | [] => .nil
  | n :: ns => .cons n (ofList ns)

/-- Concatenation of sibling lists. -/
def nsAppend : Nodes → Nodes → Nodes
  | .nil, ms => ms
  | .cons n ns, ms => .cons n (nsAppend ns ms)

mutual
/-- BeautifulSoup `get_text()`: concatenation of all descendant text. -/
def getText : Node → String
  | .text s => s
  | .elem _ _ _ ch => getTexts ch
/-- `get_text` over a sibling list. -/
def getTexts : Nodes → String
  | .nil => ""
  | .cons n .nil => getText n
  | .cons n ns => getText n ++ getTexts ns
end

mutual
/-- BeautifulSoup `.string`: defined when the node is a text node or an
element with exactly one child whose `.string` is defined. -/
def nodeString : Node → Option String
  | .text s => some s
  | .elem _ _ _ ch => nodeStringAux ch
/-- Helper for `nodeString` on the children list. -/
def nodeStringAux : Nodes → Option String
  | .cons c .nil => nodeString c
  | _ => none
end

/-- Tag-name filter (`soup.find('span')`). -/
def isTag (t : String) : Node → Bool
  | .text _ => false
  | .elem tag _ _ _ => tag == t

/-- Tag-name plus CSS-class filter (`soup.find(t, class_=c)`). -/
def isTagClass (t c : String) : Node → Bool
  | .text _ => false
  | .elem tag classes _ _ => tag == t && classes.contains c

/-- Attribute-equality filter (`soup.find(t, attrs={k: v})`). -/
def hasAttr (k v : String) : Node → Bool
  | .text _ => false
  | .elem _ _ attrs _ => attrs.lookup k == some v

/-- `tag.get(k)`: attribute lookup. -/
def getAttr (k : String) : Node → Option String
  | .text _ => none
  | .elem _ _ attrs _ => attrs.lookup k

mutual
/-- BeautifulSoup `find_all(pred)` on a node: all matching descendants
(the node itself excluded) in document (pre-)order. -/
def findAllN (p : Node → Bool) : Node → List Node
  | .text _ => []
  | .elem _ _ _ ch => findAllL p ch
/-- `find_all` over a sibling list: each sibling and its descendants. -/
def findAllL (p : Node → Bool) : Nodes → List Node
  | .nil => []
  | .cons n ns => (if p n then [n] else []) ++ findAllN p n ++ findAllL p ns
end

/-- BeautifulSoup `find(pred)`: the first matching descendant in
document order, if any. -/
def findFirst (p : Node → Bool) (n : Node) : Option Node :=
  (findAllN p n).head?

/-- Result of scanning a sibling list for the parent of the first
matching descendant: the match is a direct sibling (`childHit`), the
match is deeper and the parent has been located (`deepHit`), or there
is no match (`miss`). -/
inductive Loc where
  | childHit : Loc
  | deepHit (s : Node) : Loc
  | miss : Loc

mutual
/-- The section locator, `soup.find(heading).parent`: the parent of the
first node matching `p` in document order, if any. -/
def locN (p : Node → Bool) : Node → Option Node
  | .text _ => none
  | .elem t c a ch =>
    match locL p ch with
    | .childHit => some (.elem t c a ch)
    | .deepHit s => some s
    | .miss => none
/-- Locator scan over a sibling list. -/
def locL (p : Node → Bool) : Nodes → Loc
  | .nil => .miss
  | .cons n ns =>
    if p n then .childHit
    else
      match locN p n with
      | some s => .deepHit s
      | none => locL p ns
end

/-- Result of a parent-locating mutation over a sibling list. -/
inductive MutLRes where
  | nomatch : MutLRes
  | childHit : MutLRes
  | deepHit (r : Option Nodes) : MutLRes

mutual
/-- Locate the parent of the first node matching `p` (as the Python
code does with `soup.find(...).parent`) and apply the possibly-failing
mutation `f` to it.  `none`: no match anywhere; `some none`: the
mutation raised; `some (some d)`: the mutated document. -/
def mutParent (p : Node → Bool) (f : Node → Option Node) : Node → Option (Option Node)
  | .text _ => none
  | .elem t c a ch =>
    match mutParentL p f ch with
    | .nomatch => none
    | .childHit => some (f (.elem t c a ch))
    | .deepHit none => some none
    | .deepHit (some ch') => some (some (.elem t c a ch'))
/-- `mutParent` scan over a sibling list. -/
def mutParentL (p : Node → Bool) (f : Node → Option Node) : Nodes → MutLRes
  | .nil => .nomatch
  | .cons n ns =>
    if p n then .childHit
    else
      match mutParent p f n with
      | some none => .deepHit none
      | some (some n') => .deepHit (some (.cons n' ns))
      | none =>
        match mutParentL p f ns with
        | .nomatch => .nomatch
        | .childHit => .childHit
        | .deepHit none => .deepHit none
        | .deepHit (some ns') => .deepHit (some (.cons n ns'))
end

mutual
/-- Mutate the first descendant matching `p` in place (the pattern
`editable = item.find(...); editable.string = ...`).  `none` when no
descendant matches. -/
def uf (p : Node → Bool) (f : Node → Node) : Node → Option Node
  | .text _ => none
  | .elem t c a ch => (ufL p f ch).map (.elem t c a ·)
/-- `uf` scan over a sibling list. -/
def ufL (p : Node → Bool) (f : Node → Node) : Nodes → Option Nodes
  | .nil => none
  | .cons n ns =>
    if p n then some (.cons (f n) ns)
    else
      match uf p f n with
      | some n' => some (.cons n' ns)
      | none => (ufL p f ns).map (.cons n ·)
end

/-- Mutate the first matching descendant, or leave the node unchanged
when there is none (the guarded `if editable:` pattern). -/
def updateFirst (p : Node → Bool) (f : Node → Node) (n : Node) : Node :=
  (uf p f n).getD n

mutual
/-- Apply `f` to every descendant matching `p` (the pattern
`for item in soup.find_all(...): mutate item`).  Descendants of a
match are transformed before `f` is applied to it; on documents where
matching nodes are not nested in one another (all documents considered
here) this agrees with BeautifulSoup's document-order loop. -/
def tmN (p : Node → Bool) (f : Node → Node) : Node → Node
  | .text s => .text s
  | .elem t c a ch => .elem t c a (tmL p f ch)
/-- `tmN` over a sibling list. -/
def tmL (p : Node → Bool) (f : Node → Node) : Nodes → Nodes
  | .nil => .nil
  | .cons n ns =>
    .cons (if p n then f (tmN p f n) else tmN p f n) (tmL p f ns)
end

mutual
/-- Remove every descendant matching `p` (the pattern
`for item in section.find_all(...): item.decompose()`). -/
def rmN (p : Node → Bool) : Node → Node
  | .text s => .text s
  | .elem t c a ch => .elem t c a (rmL p ch)
/-- `rmN` over a sibling list. -/
def rmL (p : Node → Bool) : Nodes → Nodes
  | .nil => .nil
  | .cons n ns => if p n then rmL p ns else .cons (rmN p n) (rmL p ns)
end

mutual
/-- Insert `new` as a sibling immediately before the first descendant
matching `p` (`first.insert_before(new)`).  `none` when no descendant
matches. -/
def ibN (p : Node → Bool) (new : Node) : Node → Option Node
  | .text _ => none
  | .elem t c a ch => (ibL p new ch).map (.elem t c a ·)
/-- `ibN` over a sibling list. -/
def ibL (p : Node → Bool) (new : Node) : Nodes → Option Nodes
  | .nil => none
  | .cons n ns =>
    if p n then some (.cons new (.cons n ns))
    else
      match ibN p new n with
      | some n' => some (.cons n' ns)
      | none => (ibL p new ns).map (.cons n ·)
end

/-- `tag.string = s`: replace the node's contents by a single text
node. -/
def setString (s : String) : Node → Node
  | .text t => .text t
  | .elem t c a _ => .elem t c a (.cons (.text s) .nil)

/-- Replace an attribute value, keeping its position, or add it. -/
def setAttrList (k v : String) : List (String × String) → List (String × String)
  | [] => [(k, v)]
  | (k', v') :: rest =>
    if k' == k then (k, v) :: rest else (k', v') :: setAttrList k v rest

/-- `tag[k] = v`: attribute assignment. -/
def setAttr (k v : String) : Node → Node
  | .text t => .text t
  | .elem t c a ch => .elem t c (setAttrList k v a) ch

/-- `tag.clear()` followed by appending the given children. -/
def setChildren (ns : Nodes) : Node → Node
  | .text t => .text t
  | .elem t c a _ => .elem t c a ns

/-- `tag.append(new)`: append a child at the end. -/
def appendChild (new : Node) : Node → Node
  | .text t => .text t
  | .elem t c a ch => .elem t c a (nsAppend ch (.cons new .nil))


/-! ## Data model (the dataclasses of `cv_editor.py`) -/

/-- `ContactInfo` dataclass. -/
structure ContactInfo where
  name : String := ""
  title : String := ""
  address : String := ""
  email : String := ""
  phone : String := ""
  linkedin : String := ""
  github : String := ""
deriving DecidableEq, Repr

/-- `Education` dataclass. -/
structure Education where
  degree : String := ""
  institution : String := ""
  location : String := ""
  duration : String := ""
  description : String := ""
deriving DecidableEq, Repr

/-- `Experience` dataclass. -/
structure Experience where
  position : String := ""
  company : String := ""
  location : String := ""
  duration : String := ""
  description : String := ""
deriving DecidableEq, Repr

/-- One entry of a project's `links` list: a JSON dict with optional
`text` and `url` keys (read with `link.get('text', '🔗 Link')` and
`link.get('url', '#')`). -/
structure LinkIn where
  text : Option String := none
  url : Option String := none
deriving DecidableEq, Repr

/-- `Project` dataclass; `links` holds the raw link dicts. -/
structure Project where
  title : String := ""
  subtitle : String := ""
  technologies : String := ""
  description : String := ""
  links : List LinkIn := []
deriving DecidableEq, Repr

/-- `Award` dataclass. -/
structure Award where
  title : String := ""
  description : String := ""
deriving DecidableEq, Repr

/-- `Skills` dataclass. -/
structure Skills where
  programming_languages : List String := []
  frameworks : List String := []
  tools : List String := []
deriving DecidableEq, Repr

/-! ## Section locator predicates

Each section is located with
`soup.find('h2', class_='section-title', string=lambda text: text and KEY in text.strip())`;
`headingPred f` models the combined filter: the tag/class match plus
the `string=` lambda (which receives `tag.string`, `None` when the tag
does not have a unique string child, and requires it truthy). -/

/-- The `find('h2', class_='section-title', string=lambda ...)` filter. -/
def headingPred (f : String → Bool) (n : Node) : Bool :=
  isTagClass "h2" "section-title" n &&
    (match nodeString n with
     | some s => (!(s == "")) && f s
     | none => false)

/-- Experience-section heading filter (`'Experience' in text.strip()`). -/
def expHeading : Node → Bool :=
  headingPred (fun s => strContains (pystrip s) "Experience")

/-- Projects-section heading filter (`'Featured Projects' in text.strip()`). -/
def projHeading : Node → Bool :=
  headingPred (fun s => strContains (pystrip s) "Featured Projects")

/-- Skills-section heading filter (`'Skills' in text.strip()`). -/
def skillsHeading : Node → Bool :=
  headingPred (fun s => strContains (pystrip s) "Skills")

/-- Education-section heading filter (`'Education' in text.strip()`). -/
def eduHeading : Node → Bool :=
  headingPred (fun s => strContains (pystrip s) "Education")

/-- Awards-section heading filter: requires both `'Awards'` and
`'Achievements'` to occur in the heading text. -/
def awardsHeading : Node → Bool :=
  headingPred (fun s => strContains (pystrip s) "Awards" && strContains (pystrip s) "Achievements")

/-- `div.experience-item` filter. -/
def isExpItem : Node → Bool := isTagClass "div" "experience-item"
/-- `div.project-item` filter. -/
def isProjItem : Node → Bool := isTagClass "div" "project-item"
/-- `div.education-item` filter. -/
def isEduItem : Node → Bool := isTagClass "div" "education-item"
/-- `div.awards-item` filter. -/
def isAwardItem : Node → Bool := isTagClass "div" "awards-item"
/-- `div.contact-item` filter. -/
def isContactItem : Node → Bool := isTagClass "div" "contact-item"
/-- `div.skills-grid` filter. -/
def isSkillsGrid : Node → Bool := isTagClass "div" "skills-grid"
/-- `div.skill-category` filter. -/
def isSkillCat : Node → Bool := isTagClass "div" "skill-category"
/-- `div.skill-tags` filter. -/
def isSkillTags : Node → Bool := isTagClass "div" "skill-tags"
/-- `span.skill-tag` filter. -/
def isSkillTag : Node → Bool := isTagClass "span" "skill-tag"
/-- `a.project-link` filter. -/
def isProjLink : Node → Bool := isTagClass "a" "project-link"

/-! ## Entry subtree builders (the `new_tag` blocks of the `add_*` methods) -/

/-- A single text child. -/
def textChild (s : String) : Nodes := .cons (.text s) .nil

/-- The `experience-item` subtree built by `add_experience`. -/
def newExperienceItem (e : Experience) : Node :=
  .elem "div" ["experience-item"] [] (ofList [
    .elem "div" ["item-header"] [] (ofList [
      .elem "div" [] [] (ofList [
        .elem "h3" ["item-title"] [("content", "true")] (textChild e.position),
        .elem "p" ["item-company"] [("content", "true")] (textChild e.company),
        .elem "p" ["item-location"] [("content", "true")] (textChild e.location)]),
      .elem "div" ["item-duration"] [("content", "true")] (textChild e.duration)]),
    .elem "p" ["item-description"] [("content", "true")] (textChild e.description)])

/-- The anchor built for one project link:
`new_tag('a', href=link.get('url', '#'), class='project-link', content='true')`
with display text `link.get('text', '🔗 Link')`. -/
def linkNode (l : LinkIn) : Node :=
  .elem "a" ["project-link"] [("href", l.url.getD "#"), ("content", "true")]
    (textChild (l.text.getD "🔗 Link"))

/-- The `project-item` subtree built by `add_project` (the links block
is appended only when `project.links` is truthy, i.e. non-empty). -/
def newProjectItem (p : Project) : Node :=
  .elem "div" ["project-item"] []
    (ofList ([
      .elem "div" ["item-header"] [] (ofList [
        .elem "div" [] [] (ofList [
          .elem "h3" ["item-title"] [("content", "true")] (textChild p.title),
          .elem "p" ["item-company"] [("content", "true")] (textChild p.subtitle)]),
        .elem "div" ["item-duration"] [("content", "true")] (textChild p.technologies)]),
      .elem "p" ["item-description"] [("content", "true")] (textChild p.description)] ++
      (if p.links = [] then []
       else [.elem "div" ["project-links"] [] (ofList (p.links.map linkNode))])))

/-- The `education-item` subtree built by `add_education`. -/
def newEducationItem (e : Education) : Node :=
  .elem "div" ["education-item"] [] (ofList [
    .elem "div" ["item-header"] [] (ofList [
      .elem "div" [] [] (ofList [
        .elem "h3" ["item-title"] [("content", "true")] (textChild e.degree),
        .elem "p" ["item-company"] [("content", "true")] (textChild e.institution),
        .elem "p" ["item-location"] [("content", "true")] (textChild e.location)]),
      .elem "div" ["item-duration"] [("content", "true")] (textChild e.duration)]),
    .elem "p" ["item-description"] [("content", "true")] (textChild e.description)])

/-- The `awards-item` subtree built by `add_award`. -/
def newAwardItem (a : Award) : Node :=
  .elem "div" ["awards-item"] [] (ofList [
    .elem "h3" ["award-title"] [("content", "true")] (textChild a.title),
    .elem "p" ["award-description"] [("content", "true")] (textChild a.description)])

/-- A `span.skill-tag` node built by `update_skills`. -/
def skillTagNode (s : String) : Node :=
  .elem "span" ["skill-tag"] [("content", "true")] (textChild s)

/-! ## Mutators -/

/-- Insert the new entry immediately before the section's first
existing entry node, or append it when the section has none. -/
def insertEntry (itemPred : Node → Bool) (newItem : Node) (sec : Node) : Node :=
  match ibN itemPred newItem sec with
  | some sec' => sec'
  | none => appendChild newItem sec

/-- `CVEditor.add_experience`: locate the Experience section by its
heading; when absent, warn and return the document unchanged;
otherwise insert the new entry at the front of the entry list. -/
def add_experience (e : Experience) (doc : Node) : Node :=
  match mutParent expHeading (fun sec => some (insertEntry isExpItem (newExperienceItem e) sec)) doc with
  | some (some d) => d
  | _ => doc

/-- `CVEditor.add_project`. -/
def add_project (p : Project) (doc : Node) : Node :=
  match mutParent projHeading (fun sec => some (insertEntry isProjItem (newProjectItem p) sec)) doc with
  | some (some d) => d
  | _ => doc

/-- `CVEditor.add_education`. -/
def add_education (e : Education) (doc : Node) : Node :=
  match mutParent eduHeading (fun sec => some (insertEntry isEduItem (newEducationItem e) sec)) doc with
  | some (some d) => d
  | _ => doc

/-- `CVEditor.add_award`. -/
def add_award (a : Award) (doc : Node) : Node :=
  match mutParent awardsHeading (fun sec => some (insertEntry isAwardItem (newAwardItem a) sec)) doc with
  | some (some d) => d
  | _ => doc

/-- Filter for `find('span', attrs={'content': 'true'})`. -/
def spanContent (n : Node) : Bool := isTag "span" n && hasAttr "content" "true" n
/-- Filter for `find('a', attrs={'content': 'true'})`. -/
def aContent (n : Node) : Bool := isTag "a" n && hasAttr "content" "true" n

/-- The per-item body of `update_contact_info`'s loop: read the icon
from the item's first `span`, then overwrite the matching editable
node for the icon's field when the corresponding input field is
truthy (non-empty). -/
def contactItemUpdate (c : ContactInfo) (item : Node) : Node :=
  match findFirst (isTag "span") item with
  | none => item
  | some sp =>
    let icon := pystrip (getText sp)
    if icon = "📍" then
      if c.address = "" then item
      else updateFirst spanContent (setString c.address) item
    else if icon = "📧" then
      if c.email = "" then item
      else updateFirst aContent
        (fun n => setAttr "href" ("mailto:" ++ c.email) (setString c.email n)) item
    else if icon = "📱" then
      if c.phone = "" then item
      else updateFirst spanContent (setString c.phone) item
    else if icon = "🔗" then
      if c.linkedin = "" then item
      else updateFirst aContent
        (fun n => setAttr "href" c.linkedin (setString c.linkedin n)) item
    else if icon = "💻" then
      if c.github = "" then item
      else updateFirst aContent
        (fun n => setAttr "href" c.github (setString c.github n)) item
    else item

/-- `CVEditor.update_contact_info`: overwrite the name and title nodes
when those inputs are truthy, then update each `div.contact-item` in
document order. -/
def update_contact_info (c : ContactInfo) (doc : Node) : Node :=
  let d1 :=
    if c.name = "" then doc
    else updateFirst (fun n => isTagClass "h1" "name" n && hasAttr "content" "true" n)
      (setString c.name) doc
  let d2 :=
    if c.title = "" then d1
    else updateFirst (fun n => isTagClass "p" "title" n && hasAttr "content" "true" n)
      (setString c.title) d1
  tmN isContactItem (contactItemUpdate c) d2

/-- The body of `update_skills`'s per-category loop.  Reads the label
from the category's first `h4` (skipping the category when absent) and
the first `div.skill-tags` block.  When the label matches a category
whose input list is truthy, the tag block is cleared and rebuilt —
`none` models the `AttributeError` Python raises at
`skill_tags.clear()` when no `div.skill-tags` exists in the
category. -/
def catUpdate (sk : Skills) (cat : Node) : Option Node :=
  match findFirst (isTag "h4") cat with
  | none => some cat
  | some h4 =>
    let nm := pystrip (getText h4)
    if nm = "Programming Languages" then
      if sk.programming_languages = [] then some cat
      else
        match findFirst isSkillTags cat with
        | none => none
        | some _ => some (updateFirst isSkillTags
            (setChildren (ofList (sk.programming_languages.map skillTagNode))) cat)
    else if nm = "Frameworks & Technologies" then
      if sk.frameworks = [] then some cat
      else
        match findFirst isSkillTags cat with
        | none => none
        | some _ => some (updateFirst isSkillTags
            (setChildren (ofList (sk.frameworks.map skillTagNode))) cat)
    else if nm = "Tools & Platforms" then
      if sk.tools = [] then some cat
      else
        match findFirst isSkillTags cat with
        | none => none
        | some _ => some (updateFirst isSkillTags
            (setChildren (ofList (sk.tools.map skillTagNode))) cat)
    else some cat

/-- The section-level body of `update_skills`: find the `skills-grid`
block (returning the section unchanged when absent), then process each
`div.skill-category` under it.  The raising loop is modelled by first
checking whether any category raises and otherwise applying the total
update to every category of the grid. -/
def skillsSectionUpdate (sk : Skills) (sec : Node) : Option Node :=
  match findFirst isSkillsGrid sec with
  | none => some sec
  | some grid =>
    if (findAllN isSkillCat grid).any (fun c => (catUpdate sk c).isNone) then none
    else some (updateFirst isSkillsGrid
      (tmN isSkillCat (fun c => (catUpdate sk c).getD c)) sec)

/-- `CVEditor.update_skills`: locate the Skills section by its heading
(warning and leaving the document unchanged when absent), then rebuild
the tag lists of the categories whose input list is truthy.  `none`
models the uncaught `AttributeError` on a missing `div.skill-tags`. -/
def update_skills (sk : Skills) (doc : Node) : Option Node :=
  match mutParent skillsHeading (skillsSectionUpdate sk) doc with
  | none => some doc
  | some none => none
  | some (some d) => some d

/-! ## Extractor (`CVEditor.extract_data`)

The extracted JSON is modelled with `Option` fields: `none` means the
key is absent from the produced dict, `some v` that it is present with
value `v`. -/

/-- The `contact` dict of `extract_data`. -/
structure ContactOut where
  name : Option String := none
  title : Option String := none
  address : Option String := none
  email : Option String := none
  phone : Option String := none
  linkedin : Option String := none
  github : Option String := none
deriving DecidableEq, Repr

/-- One entry of the extracted `experience` list. -/
structure ExpOut where
  position : Option String := none
  company : Option String := none
  location : Option String := none
  duration : Option String := none
  description : Option String := none
deriving DecidableEq, Repr

/-- One entry of the extracted `projects` list; `links` is always a
present key (`some`), holding `(text, url)` pairs. -/
structure ProjOut where
  title : Option String := none
  subtitle : Option String := none
  technologies : Option String := none
  description : Option String := none
  links : Option (List (String × String)) := none
deriving DecidableEq, Repr

/-- One entry of the extracted `education` list. -/
structure EduOut where
  degree : Option String := none
  institution : Option String := none
  location : Option String := none
  duration : Option String := none
  description : Option String := none
deriving DecidableEq, Repr

/-- The extracted `skills` dict (all three keys always present). -/
structure SkillsOut where
  programming_languages : List String := []
  frameworks : List String := []
  tools : List String := []
deriving DecidableEq, Repr

/-- One entry of the extracted `awards` list. -/
structure AwardOut where
  title : Option String := none
  description : Option String := none
deriving DecidableEq, Repr

/-- The per-item body of the contact-detail extraction loop: dispatch
on the icon in the item's first `span` and record the field, reading
email/phone from the editable node's display text but linkedin/github
from its `href` attribute. -/
def contactItemRead (acc : ContactOut) (item : Node) : ContactOut :=
  match findFirst (isTag "span") item with
  | none => acc
  | some sp =>
    let icon := pystrip (getText sp)
    if icon = "📍" then
      match findFirst (isTagClass "span" "editable") item with
      | some ed => { acc with address := some (pystrip (getText ed)) }
      | none => acc
    else if icon = "📧" then
      match findFirst (isTagClass "a" "editable") item with
      | some ed => { acc with email := some (pystrip (getText ed)) }
      | none => acc
    else if icon = "📱" then
      match findFirst (isTagClass "span" "editable") item with
      | some ed => { acc with phone := some (pystrip (getText ed)) }
      | none => acc
    else if icon = "🔗" then
      match findFirst (isTagClass "a" "editable") item with
      | some ed => { acc with linkedin := some ((getAttr "href" ed).getD "") }
      | none => acc
    else if icon = "💻" then
      match findFirst (isTagClass "a" "editable") item with
      | some ed => { acc with github := some ((getAttr "href" ed).getD "") }
      | none => acc
    else acc

/-- The contact part of `extract_data`: `name` and `title` are always
assigned (empty string when the node is missing); the detail fields
are filled in by the loop over `div.contact-item` rows. -/
def extractContact (doc : Node) : ContactOut :=
  let base : ContactOut :=
    { name := some (((findFirst (isTagClass "h1" "name") doc).map (fun n => pystrip (getText n))).getD ""),
      title := some (((findFirst (isTagClass "p" "title") doc).map (fun n => pystrip (getText n))).getD "") }
  (findAllN isContactItem doc).foldl contactItemRead base

/-- Read one `experience-item` subtree into a record; each field is
emitted only when its sub-node is found. -/
def expRead (item : Node) : ExpOut :=
  { position := (findFirst (isTagClass "h3" "item-title") item).map (fun n => pystrip (getText n)),
    company := (findFirst (isTagClass "p" "item-company") item).map (fun n => pystrip (getText n)),
    location := (findFirst (isTagClass "p" "item-location") item).map (fun n => pystrip (getText n)),
    duration := (findFirst (isTagClass "div" "item-duration") item).map (fun n => pystrip (getText n)),
    description := (findFirst (isTagClass "p" "item-description") item).map (fun n => pystrip (getText n)) }

/-- The `experience` list of `extract_data`: all `div.experience-item`
nodes of the whole document, in document order. -/
def extractExperience (doc : Node) : List ExpOut :=
  (findAllN isExpItem doc).map expRead

/-- Read one project link anchor into a `(text, url)` pair. -/
def linkRead (n : Node) : String × String :=
  (pystrip (getText n), (getAttr "href" n).getD "")

/-- Read one `project-item` subtree into a record; the `links` key is
always present. -/
def projRead (item : Node) : ProjOut :=
  { title := (findFirst (isTagClass "h3" "item-title") item).map (fun n => pystrip (getText n)),
    subtitle := (findFirst (isTagClass "p" "item-company") item).map (fun n => pystrip (getText n)),
    technologies := (findFirst (isTagClass "div" "item-duration") item).map (fun n => pystrip (getText n)),
    description := (findFirst (isTagClass "p" "item-description") item).map (fun n => pystrip (getText n)),
    links := some ((findAllN isProjLink item).map linkRead) }

/-- The `projects` list of `extract_data`. -/
def extractProjects (doc : Node) : List ProjOut :=
  (findAllN isProjItem doc).map projRead

/-- Read one `education-item` subtree into a record. -/
def eduRead (item : Node) : EduOut :=
  { degree := (findFirst (isTagClass "h3" "item-title") item).map (fun n => pystrip (getText n)),
    institution := (findFirst (isTagClass "p" "item-company") item).map (fun n => pystrip (getText n)),
    location := (findFirst (isTagClass "p" "item-location") item).map (fun n => pystrip (getText n)),
    duration := (findFirst (isTagClass "div" "item-duration") item).map (fun n => pystrip (getText n)),
    description := (findFirst (isTagClass "p" "item-description") item).map (fun n => pystrip (getText n)) }

/-- The `education` list of `extract_data`. -/
def extractEducation (doc : Node) : List EduOut :=
  (findAllN isEduItem doc).map eduRead

/-- The per-category body of the skills extraction loop: route the tag
texts by the category's `h4` label, silently ignoring unrecognised
labels and categories without an `h4`. -/
def skillCatRead (acc : SkillsOut) (cat : Node) : SkillsOut :=
  match findFirst (isTag "h4") cat with
  | none => acc
  | some h4 =>
    let nm := pystrip (getText h4)
    let sks := (findAllN isSkillTag cat).map (fun t => pystrip (getText t))
    if nm = "Programming Languages" then { acc with programming_languages := sks }
    else if nm = "Frameworks & Technologies" then { acc with frameworks := sks }
    else if nm = "Tools & Platforms" then { acc with tools := sks }
    else acc

/-- The `skills` dict of `extract_data`. -/
def extractSkills (doc : Node) : SkillsOut :=
  (findAllN isSkillCat doc).foldl skillCatRead {}

/-- Read one `awards-item` subtree into a record. -/
def awardRead (item : Node) : AwardOut :=
  { title := (findFirst (isTagClass "h3" "award-title") item).map (fun n => pystrip (getText n)),
    description := (findFirst (isTagClass "p" "award-description") item).map (fun n => pystrip (getText n)) }

/-- The `awards` list of `extract_data`. -/
def extractAwards (doc : Node) : List AwardOut :=
  (findAllN isAwardItem doc).map awardRead

/-- The full record produced by `CVEditor.extract_data`. -/
structure CVData where
  contact : ContactOut
  experience : List ExpOut
  projects : List ProjOut
  education : List EduOut
  skills : SkillsOut
  awards : List AwardOut
deriving DecidableEq, Repr

/-- `CVEditor.extract_data`. -/
def extract_data (doc : Node) : CVData :=
  { contact := extractContact doc,
    experience := extractExperience doc,
    projects := extractProjects doc,
    education := extractEducation doc,
    skills := extractSkills doc,
    awards := extractAwards doc }

/-! ## Full-record import (`CVEditor.import_data`)

The JSON input is modelled with `Option` for dict keys read with
`.get(key, default)` and plain lists for the entry collections (an
absent key and an empty list are both skipped by the
`if key in json_data and json_data[key]:` guards, so they are
identified). -/

/-- The `contact` object of the input JSON. -/
structure ContactIn where
  name : Option String := none
  title : Option String := none
  address : Option String := none
  email : Option String := none
  phone : Option String := none
  linkedin : Option String := none
  github : Option String := none
deriving DecidableEq, Repr

/-- One entry of the input `experience` list. -/
structure ExpIn where
  position : Option String := none
  company : Option String := none
  location : Option String := none
  duration : Option String := none
  description : Option String := none
deriving DecidableEq, Repr

/-- One entry of the input `projects` list. -/
structure ProjIn where
  title : Option String := none
  subtitle : Option String := none
  technologies : Option String := none
  description : Option String := none
  links : List LinkIn := []
deriving DecidableEq, Repr

/-- One entry of the input `education` list. -/
structure EduIn where
  degree : Option String := none
  institution : Option String := none
  location : Option String := none
  duration : Option String := none
  description : Option String := none
deriving DecidableEq, Repr

/-- The `skills` object of the input JSON. -/
structure SkillsIn where
  programming_languages : Option (List String) := none
  frameworks : Option (List String) := none
  tools : Option (List String) := none
deriving DecidableEq, Repr

/-- One entry of the input `awards` list. -/
structure AwardIn where
  title : Option String := none
  description : Option String := none
deriving DecidableEq, Repr

/-- The whole input record of `import_data`. -/
structure ImportData where
  contact : Option ContactIn := none
  experience : List ExpIn := []
  projects : List ProjIn := []
  skills : Option SkillsIn := none
  education : List EduIn := []
  awards : List AwardIn := []
deriving DecidableEq, Repr

/-- `ContactInfo(contact_data.get('name', ''), ...)`. -/
def toContactInfo (c : ContactIn) : ContactInfo :=
  { name := c.name.getD "", title := c.title.getD "", address := c.address.getD "",
    email := c.email.getD "", phone := c.phone.getD "",
    linkedin := c.linkedin.getD "", github := c.github.getD "" }

/-- `Experience(exp_data.get('position', ''), ...)`. -/
def toExperience (e : ExpIn) : Experience :=
  { position := e.position.getD "", company := e.company.getD "",
    location := e.location.getD "", duration := e.duration.getD "",
    description := e.description.getD "" }

/-- `Project(proj_data.get('title', ''), ..., links=proj_data.get('links', []))`. -/
def toProject (p : ProjIn) : Project :=
  { title := p.title.getD "", subtitle := p.subtitle.getD "",
    technologies := p.technologies.getD "", description := p.description.getD "",
    links := p.links }

/-- `Education(edu_data.get('degree', ''), ...)`. -/
def toEducation (e : EduIn) : Education :=
  { degree := e.degree.getD "", institution := e.institution.getD "",
    location := e.location.getD "", duration := e.duration.getD "",
    description := e.description.getD "" }

/-- `Skills(skills_data.get('programming_languages', []), ...)`. -/
def toSkills (s : SkillsIn) : Skills :=
  { programming_languages := s.programming_languages.getD [],
    frameworks := s.frameworks.getD [], tools := s.tools.getD [] }

/-- `Award(award_data.get('title', ''), ...)`. -/
def toAward (a : AwardIn) : Award :=
  { title := a.title.getD "", description := a.description.getD "" }

/-- The experience step of `import_data`: when the input list is
truthy and the section heading is found, decompose every existing
`div.experience-item` under the section, then `add_experience` each
input entry in input order (each insertion at the front). -/
def impExperience (l : List ExpIn) (doc : Node) : Node :=
  if l = [] then doc
  else
    match mutParent expHeading (fun sec => some (rmN isExpItem sec)) doc with
    | some (some d) => l.foldl (fun d e => add_experience (toExperience e) d) d
    | _ => doc

/-- The projects step of `import_data`. -/
def impProjects (l : List ProjIn) (doc : Node) : Node :=
  if l = [] then doc
  else
    match mutParent projHeading (fun sec => some (rmN isProjItem sec)) doc with
    | some (some d) => l.foldl (fun d p => add_project (toProject p) d) d
    | _ => doc

/-- The education step of `import_data`. -/
def impEducation (l : List EduIn) (doc : Node) : Node :=
  if l = [] then doc
  else
    match mutParent eduHeading (fun sec => some (rmN isEduItem sec)) doc with
    | some (some d) => l.foldl (fun d e => add_education (toEducation e) d) d
    | _ => doc

/-- The awards step of `import_data`. -/
def impAwards (l : List AwardIn) (doc : Node) : Node :=
  if l = [] then doc
  else
    match mutParent awardsHeading (fun sec => some (rmN isAwardItem sec)) doc with
    | some (some d) => l.foldl (fun d a => add_award (toAward a) d) d
    | _ => doc

/-- The skills step of `import_data`: `update_skills` is only invoked
after the heading is found (the failure case can propagate an
exception, modelled by `none`). -/
def impSkills (s : Option SkillsIn) (doc : Node) : Option Node :=
  match s with
  | none => some doc
  | some sk =>
    match mutParent skillsHeading some doc with
    | none => some doc
    | some _ => update_skills (toSkills sk) doc

/-- `CVEditor.import_data` (named `applyImport` here): the sequential
per-category import.  A raised exception (only possible in the skills
step in this model) is caught, reported and re-raised, aborting the
remaining steps; this is modelled by `none`. -/
def applyImport (j : ImportData) (doc : Node) : Option Node :=
  let d1 := match j.contact with
    | some c => update_contact_info (toContactInfo c) doc
    | none => doc
  let d2 := impExperience j.experience d1
  let d3 := impProjects j.projects d2
  match impSkills j.skills d3 with
  | none => none
  | some d4 =>
    let d5 := impEducation j.education d4
    let d6 := impAwards j.awards d5
    some d6

/-! ## Test-fixture documents

Parametric documents following the schema the spec's §6 document
contract describes (one `h2.section-title` heading per section, fixed
marker nodes for contact info).  The claims are settled against these
families, quantified over their content. -/

/-- A `span.editable` contact value node (also carrying the
`content='true'` marker the mutator addresses). -/
def spanEditable (s : String) : Node :=
  .elem "span" ["editable"] [("content", "true")] (textChild s)

/-- An `a.editable` contact link node with display text and `href`. -/
def aEditable (txt href : String) : Node :=
  .elem "a" ["editable"] [("content", "true"), ("href", href)] (textChild txt)

/-- One `div.contact-item` row: icon span followed by the value node. -/
def contactItemN (icon : String) (body : Node) : Node :=
  .elem "div" ["contact-item"] [] (ofList [.elem "span" [] [] (textChild icon), body])

/-- A header document with the full set of contact markers.  The email
and the two link rows carry independent display text and `href` so
that the read/write asymmetry is observable. -/
def contactDoc (nm ti ad emT emH ph liT liH ghT ghH : String) : Node :=
  .elem "html" [] [] (ofList [
    .elem "body" [] [] (ofList [
      .elem "div" ["header"] [] (ofList [
        .elem "h1" ["name"] [("content", "true")] (textChild nm),
        .elem "p" ["title"] [("content", "true")] (textChild ti),
        .elem "div" ["contact-info"] [] (ofList [
          contactItemN "📍" (spanEditable ad),
          contactItemN "📧" (aEditable emT emH),
          contactItemN "📱" (spanEditable ph),
          contactItemN "🔗" (aEditable liT liH),
          contactItemN "💻" (aEditable ghT ghH)])])])])

/-- A section heading node. -/
def h2Node (heading : String) : Node :=
  .elem "h2" ["section-title"] [] (textChild heading)

/-- Wrap a single node into an `html > body` shell. -/
def inBody (n : Node) : Node :=
  .elem "html" [] [] (ofList [.elem "body" [] [] (ofList [n])])

/-- A section container: heading followed by the entry nodes. -/
def secNode (heading : String) (items : List Node) : Node :=
  .elem "div" ["section"] [] (.cons (h2Node heading) (ofList items))

/-- A minimal document holding one list section with the given heading
and entry nodes. -/
def secDoc (heading : String) (items : List Node) : Node :=
  inBody (secNode heading items)

/-- A document with an Experience section holding the given entries. -/
def expDoc (l : List Experience) : Node := secDoc "Experience" (l.map newExperienceItem)

/-- A document with a Featured Projects section. -/
def projDoc (l : List Project) : Node := secDoc "Featured Projects" (l.map newProjectItem)

/-- A document with an Education section. -/
def eduDoc (l : List Education) : Node := secDoc "Education" (l.map newEducationItem)

/-- A document with an Awards & Achievements section. -/
def awardDoc (l : List Award) : Node := secDoc "Awards & Achievements" (l.map newAwardItem)

/-- One `div.skill-category` block with its `h4` label and tag list. -/
def skillCatNode (label : String) (tags : List String) : Node :=
  .elem "div" ["skill-category"] [] (ofList [
    .elem "h4" [] [] (textChild label),
    .elem "div" ["skill-tags"] [] (ofList (tags.map skillTagNode))])

/-- The `skills-grid` node with the three recognised categories. -/
def gridNode (langs fws tools : List String) : Node :=
  .elem "div" ["skills-grid"] [] (ofList [
    skillCatNode "Programming Languages" langs,
    skillCatNode "Frameworks & Technologies" fws,
    skillCatNode "Tools & Platforms" tools])

/-- The Skills section container. -/
def skillsSection (langs fws tools : List String) : Node :=
  .elem "div" ["section"] [] (ofList [h2Node "Skills", gridNode langs fws tools])

/-- A document with a Skills section holding the three recognised
categories with the given tag lists. -/
def skillsDoc (langs fws tools : List String) : Node :=
  inBody (skillsSection langs fws tools)

/-- A Skills document whose recognised `Programming Languages`
category block has an `h4` label but no `div.skill-tags` sub-node. -/
def skillsNoTagsDoc : Node :=
  inBody (.elem "div" ["section"] [] (ofList [
    h2Node "Skills",
    .elem "div" ["skills-grid"] [] (ofList [
      .elem "div" ["skill-category"] [] (ofList [
        .elem "h4" [] [] (textChild "Programming Languages")])])]))

/-- A document whose only heading has just one of the two required
awards substrings. -/
def awardsOneWordDoc : Node := secDoc "Awards" []

/-- A document with no recognised sections at all. -/
def bareDoc : Node :=
  .elem "html" [] [] (ofList [.elem "body" [] [] .nil])

/-! ## Extracted records of freshly created entries -/

/-- The record `extract_data` produces for an entry freshly created
from an `Experience` value: every field present, whitespace-stripped. -/
def expOutOf (e : Experience) : ExpOut :=
  { position := some (pystrip e.position), company := some (pystrip e.company),
    location := some (pystrip e.location), duration := some (pystrip e.duration),
    description := some (pystrip e.description) }

/-- Extracted record for a freshly created education entry. -/
def eduOutOf (e : Education) : EduOut :=
  { degree := some (pystrip e.degree), institution := some (pystrip e.institution),
    location := some (pystrip e.location), duration := some (pystrip e.duration),
    description := some (pystrip e.description) }

/-- Extracted record for a freshly created award entry. -/
def awardOutOf (a : Award) : AwardOut :=
  { title := some (pystrip a.title), description := some (pystrip a.description) }

/-- Extracted record for a freshly created project entry. -/
def projOutOf (p : Project) : ProjOut :=
  { title := some (pystrip p.title), subtitle := some (pystrip p.subtitle),
    technologies := some (pystrip p.technologies), description := some (pystrip p.description),
    links := some (p.links.map (fun l => (pystrip (l.text.getD "🔗 Link"), l.url.getD "#"))) }

/-! ## Generic reduction lemmas

Helpers for evaluating the traversal functions symbolically over the
parametric entry lists of the fixture documents. -/

theorem findAllL_map_nil {α : Type} (p : Node → Bool) (g : α → Node) (l : List α)
    (h1 : ∀ x, p (g x) = false) (h2 : ∀ x, findAllN p (g x) = []) :
    findAllL p (ofList (l.map g)) = [] := by
  induction l with
  | nil => rfl
  | cons x xs ih => simp [ofList, findAllL, h1 x, h2 x, ih]

theorem findAllL_map_self {α : Type} (p : Node → Bool) (g : α → Node) (l : List α)
    (h1 : ∀ x, p (g x) = true) (h2 : ∀ x, findAllN p (g x) = []) :
    findAllL p (ofList (l.map g)) = l.map g := by
  induction l with
  | nil => rfl
  | cons x xs ih => simp [ofList, findAllL, h1 x, h2 x, ih]

theorem mutParentL_map_nomatch {α : Type} (p : Node → Bool) (f : Node → Option Node)
    (g : α → Node) (l : List α)
    (h1 : ∀ x, p (g x) = false) (h2 : ∀ x, ∀ f', mutParent p f' (g x) = none) :
    mutParentL p f (ofList (l.map g)) = .nomatch := by
  induction l with
  | nil => rfl
  | cons x xs ih => simp [ofList, mutParentL, h1 x, h2 x, ih]

theorem locL_map_miss {α : Type} (p : Node → Bool) (g : α → Node) (l : List α)
    (h1 : ∀ x, p (g x) = false) (h2 : ∀ x, locN p (g x) = none) :
    locL p (ofList (l.map g)) = .miss := by
  induction l with
  | nil => rfl
  | cons x xs ih => simp [ofList, locL, h1 x, h2 x, ih]

theorem rmL_map_nil {α : Type} (p : Node → Bool) (g : α → Node) (l : List α)
    (h1 : ∀ x, p (g x) = true) :
    rmL p (ofList (l.map g)) = .nil := by
  induction l with
  | nil => rfl
  | cons x xs ih => simp [ofList, rmL, h1 x, ih]

theorem tmL_map_id {α : Type} (p : Node → Bool) (f : Node → Node) (g : α → Node) (l : List α)
    (h1 : ∀ x, p (g x) = false) (h2 : ∀ x, tmN p f (g x) = g x) :
    tmL p f (ofList (l.map g)) = ofList (l.map g) := by
  induction l with
  | nil => rfl
  | cons x xs ih => simp [ofList, tmL, h1 x, h2 x, ih]

/-! ## Bridge lemmas between the locator and the mutators -/

mutual
theorem mutParent_none_of_locN (p : Node → Bool) (f : Node → Option Node) :
    ∀ n : Node, locN p n = none → mutParent p f n = none
  | .text _, _ => rfl
  | .elem t c a ch, h => by
    have hl : locL p ch = .miss := by
      revert h; unfold locN; cases locL p ch <;> simp
    unfold mutParent
    rw [mutParentL_nomatch_of_locL p f ch hl]
theorem mutParentL_nomatch_of_locL (p : Node → Bool) (f : Node → Option Node) :
    ∀ ns : Nodes, locL p ns = .miss → mutParentL p f ns = .nomatch
  | .nil, _ => rfl
  | .cons n ns, h => by
    unfold locL at h
    unfold mutParentL
    cases hp : p n with
    | true => rw [hp] at h; simp at h
    | false =>
      rw [hp] at h
      simp only [Bool.false_eq_true, if_false] at h ⊢
      cases hn : locN p n with
      | some s => rw [hn] at h; simp at h
      | none =>
        rw [hn] at h
        rw [mutParent_none_of_locN p f n hn]
        rw [mutParentL_nomatch_of_locL p f ns h]
end

mutual
theorem locN_none_of_findAllN (p : Node → Bool) :
    ∀ n : Node, findAllN p n = [] → locN p n = none
  | .text _, _ => rfl
  | .elem t c a ch, h => by
    unfold findAllN at h
    unfold locN
    rw [locL_miss_of_findAllL p ch h]
theorem locL_miss_of_findAllL (p : Node → Bool) :
    ∀ ns : Nodes, findAllL p ns = [] → locL p ns = .miss
  | .nil, _ => rfl
  | .cons n ns, h => by
    unfold findAllL at h
    unfold locL
    cases hp : p n with
    | true => rw [hp] at h; simp at h
    | false =>
      rw [hp] at h
      simp only [Bool.false_eq_true, if_false, List.nil_append, List.append_eq_nil] at h
      simp only [Bool.false_eq_true, if_false]
      rw [locN_none_of_findAllN p n h.1]
      rw [locL_miss_of_findAllL p ns h.2]
end

/-! ## Evaluation lemmas for the Experience section -/

theorem mutParent_expDoc (g : Node → Node) (l : List Experience) :
    mutParent expHeading (fun sec => some (g sec)) (expDoc l) =
      some (some (inBody (g (secNode "Experience" (l.map newExperienceItem))))) := rfl

theorem add_experience_expDoc (e : Experience) (l : List Experience) :
    add_experience e (expDoc l) = expDoc (e :: l) := by
  cases l with
  | nil => rfl
  | cons m ms => rfl

theorem expRead_newExperienceItem (e : Experience) :
    expRead (newExperienceItem e) = expOutOf e := rfl

theorem extractExperience_expDoc (l : List Experience) :
    extractExperience (expDoc l) = l.map expOutOf := by
  have h := findAllL_map_self isExpItem newExperienceItem l (fun x => rfl) (fun x => rfl)
  have h2 : findAllN isExpItem (expDoc l) =
      (findAllL isExpItem (ofList (l.map newExperienceItem)) ++ []) ++ [] := rfl
  unfold extractExperience
  rw [h2, List.append_nil, List.append_nil, h, List.map_map]
  rfl

theorem foldl_add_experience (es : List ExpIn) (m : List Experience) :
    es.foldl (fun d e => add_experience (toExperience e) d) (expDoc m)
      = expDoc ((es.map toExperience).reverse ++ m) := by
  induction es generalizing m with
  | nil => simp
  | cons e es ih =>
    rw [List.foldl_cons, add_experience_expDoc, ih]
    simp

theorem rmN_expSection (l : List Experience) :
    rmN isExpItem (secNode "Experience" (l.map newExperienceItem)) = secNode "Experience" [] := by
  have h := rmL_map_nil isExpItem newExperienceItem l (fun x => rfl)
  show Node.elem "div" ["section"] []
      (.cons (h2Node "Experience") (rmL isExpItem (ofList (l.map newExperienceItem)))) = _
  rw [h]
  rfl

theorem impExperience_expDoc (l : List Experience) (es : List ExpIn) (hne : es ≠ []) :
    impExperience es (expDoc l) = expDoc ((es.map toExperience).reverse) := by
  unfold impExperience
  rw [if_neg hne, mutParent_expDoc (rmN isExpItem) l, rmN_expSection]
  show es.foldl (fun d e => add_experience (toExperience e) d) (expDoc []) = _
  rw [foldl_add_experience es []]
  simp

/-! ## Evaluation lemmas for the Education section -/

theorem mutParent_eduDoc (g : Node → Node) (l : List Education) :
    mutParent eduHeading (fun sec => some (g sec)) (eduDoc l) =
      some (some (inBody (g (secNode "Education" (l.map newEducationItem))))) := rfl

theorem add_education_eduDoc (e : Education) (l : List Education) :
    add_education e (eduDoc l) = eduDoc (e :: l) := by
  cases l with
  | nil => rfl
  | cons m ms => rfl

theorem extractEducation_eduDoc (l : List Education) :
    extractEducation (eduDoc l) = l.map eduOutOf := by
  have h := findAllL_map_self isEduItem newEducationItem l (fun x => rfl) (fun x => rfl)
  have h2 : findAllN isEduItem (eduDoc l) =
      (findAllL isEduItem (ofList (l.map newEducationItem)) ++ []) ++ [] := rfl
  unfold extractEducation
  rw [h2, List.append_nil, List.append_nil, h, List.map_map]
  rfl

theorem foldl_add_education (es : List EduIn) (m : List Education) :
    es.foldl (fun d e => add_education (toEducation e) d) (eduDoc m)
      = eduDoc ((es.map toEducation).reverse ++ m) := by
  induction es generalizing m with
  | nil => simp
  | cons e es ih =>
    rw [List.foldl_cons, add_education_eduDoc, ih]
    simp

theorem rmN_eduSection (l : List Education) :
    rmN isEduItem (secNode "Education" (l.map newEducationItem)) = secNode "Education" [] := by
  have h := rmL_map_nil isEduItem newEducationItem l (fun x => rfl)
  show Node.elem "div" ["section"] []
      (.cons (h2Node "Education") (rmL isEduItem (ofList (l.map newEducationItem)))) = _
  rw [h]
  rfl

theorem impEducation_eduDoc (l : List Education) (es : List EduIn) (hne : es ≠ []) :
    impEducation es (eduDoc l) = eduDoc ((es.map toEducation).reverse) := by
  unfold impEducation
  rw [if_neg hne, mutParent_eduDoc (rmN isEduItem) l, rmN_eduSection]
  show es.foldl (fun d e => add_education (toEducation e) d) (eduDoc []) = _
  rw [foldl_add_education es []]
  simp

/-! ## Evaluation lemmas for the Awards section -/

theorem mutParent_awardDoc (g : Node → Node) (l : List Award) :
    mutParent awardsHeading (fun sec => some (g sec)) (awardDoc l) =
      some (some (inBody (g (secNode "Awards & Achievements" (l.map newAwardItem))))) := rfl

theorem add_award_awardDoc (a : Award) (l : List Award) :
    add_award a (awardDoc l) = awardDoc (a :: l) := by
  cases l with
  | nil => rfl
  | cons m ms => rfl

theorem extractAwards_awardDoc (l : List Award) :
    extractAwards (awardDoc l) = l.map awardOutOf := by
  have h := findAllL_map_self isAwardItem newAwardItem l (fun x => rfl) (fun x => rfl)
  have h2 : findAllN isAwardItem (awardDoc l) =
      (findAllL isAwardItem (ofList (l.map newAwardItem)) ++ []) ++ [] := rfl
  unfold extractAwards
  rw [h2, List.append_nil, List.append_nil, h, List.map_map]
  rfl

theorem foldl_add_award (es : List AwardIn) (m : List Award) :
    es.foldl (fun d a => add_award (toAward a) d) (awardDoc m)
      = awardDoc ((es.map toAward).reverse ++ m) := by
  induction es generalizing m with
  | nil => simp
  | cons e es ih =>
    rw [List.foldl_cons, add_award_awardDoc, ih]
    simp

theorem rmN_awardSection (l : List Award) :
    rmN isAwardItem (secNode "Awards & Achievements" (l.map newAwardItem))
      = secNode "Awards & Achievements" [] := by
  have h := rmL_map_nil isAwardItem newAwardItem l (fun x => rfl)
  show Node.elem "div" ["section"] []
      (.cons (h2Node "Awards & Achievements") (rmL isAwardItem (ofList (l.map newAwardItem)))) = _
  rw [h]
  rfl

theorem impAwards_awardDoc (l : List Award) (es : List AwardIn) (hne : es ≠ []) :
    impAwards es (awardDoc l) = awardDoc ((es.map toAward).reverse) := by
  unfold impAwards
  rw [if_neg hne, mutParent_awardDoc (rmN isAwardItem) l, rmN_awardSection]
  show es.foldl (fun d a => add_award (toAward a) d) (awardDoc []) = _
  rw [foldl_add_award es []]
  simp

/-! ## Evaluation lemmas for the Projects section -/

theorem mutParent_projDoc (g : Node → Node) (l : List Project) :
    mutParent projHeading (fun sec => some (g sec)) (projDoc l) =
      some (some (inBody (g (secNode "Featured Projects" (l.map newProjectItem))))) := rfl

theorem add_project_projDoc (p : Project) (l : List Project) :
    add_project p (projDoc l) = projDoc (p :: l) := by
  cases l with
  | nil => rfl
  | cons m ms => rfl

theorem findAllN_isProjItem_newProjectItem (x : Project) :
    findAllN isProjItem (newProjectItem x) = [] := by
  obtain ⟨t, st, te, d, links⟩ := x
  cases links with
  | nil => rfl
  | cons a as =>
    have h := findAllL_map_nil isProjItem linkNode (a :: as) (fun y => rfl) (fun y => rfl)
    have h2 : findAllN isProjItem (newProjectItem ⟨t, st, te, d, a :: as⟩) =
        findAllL isProjItem (ofList ((a :: as).map linkNode)) ++ [] := rfl
    rw [h2, h]
    rfl

theorem projRead_newProjectItem (x : Project) :
    projRead (newProjectItem x) = projOutOf x := by
  obtain ⟨t, st, te, d, links⟩ := x
  cases links with
  | nil => rfl
  | cons a as =>
    have h := findAllL_map_self isProjLink linkNode (a :: as) (fun y => rfl) (fun y => rfl)
    have h2 : findAllN isProjLink (newProjectItem ⟨t, st, te, d, a :: as⟩) =
        findAllL isProjLink (ofList ((a :: as).map linkNode)) ++ [] := rfl
    unfold projRead projOutOf
    rw [h2, List.append_nil, h, List.map_map]
    rfl

theorem extractProjects_projDoc (l : List Project) :
    extractProjects (projDoc l) = l.map projOutOf := by
  have h := findAllL_map_self isProjItem newProjectItem l (fun x => rfl)
    (fun x => findAllN_isProjItem_newProjectItem x)
  have h2 : findAllN isProjItem (projDoc l) =
      (findAllL isProjItem (ofList (l.map newProjectItem)) ++ []) ++ [] := rfl
  unfold extractProjects
  rw [h2, List.append_nil, List.append_nil, h, List.map_map]
  exact List.map_congr_left (fun x _ => projRead_newProjectItem x)

theorem foldl_add_project (es : List ProjIn) (m : List Project) :
    es.foldl (fun d p => add_project (toProject p) d) (projDoc m)
      = projDoc ((es.map toProject).reverse ++ m) := by
  induction es generalizing m with
  | nil => simp
  | cons e es ih =>
    rw [List.foldl_cons, add_project_projDoc, ih]
    simp

theorem rmN_projSection (l : List Project) :
    rmN isProjItem (secNode "Featured Projects" (l.map newProjectItem))
      = secNode "Featured Projects" [] := by
  have h := rmL_map_nil isProjItem newProjectItem l (fun x => rfl)
  show Node.elem "div" ["section"] []
      (.cons (h2Node "Featured Projects") (rmL isProjItem (ofList (l.map newProjectItem)))) = _
  rw [h]
  rfl

theorem impProjects_projDoc (l : List Project) (es : List ProjIn) (hne : es ≠ []) :
    impProjects es (projDoc l) = projDoc ((es.map toProject).reverse) := by
  unfold impProjects
  rw [if_neg hne, mutParent_projDoc (rmN isProjItem) l, rmN_projSection]
  show es.foldl (fun d p => add_project (toProject p) d) (projDoc []) = _
  rw [foldl_add_project es []]
  simp

/-! ## Claim theorems -/

/-- C1 (counterexample): importing the experience list `[A, B]` into a
document with an empty Experience section yields entries extracted in
the order `[B, A]`, not the input order `[A, B]` — each `add_experience`
inserts before the previous front entry, so the iterated front-insertion
reverses the input list. -/
theorem C1_counterexample :
    (applyImport { experience := [{ position := some "A" }, { position := some "B" }] }
        (expDoc [])).map (fun d => (extractExperience d).map (fun r => r.position))
      = some [some "B", some "A"] ∧
    (some [some "B", some "A"] : Option (List (Option String)))
      ≠ some [some "A", some "B"] := by
  constructor
  · decide
  · decide

/-- C1 (amended): for every input record with a non-empty experience
(resp. projects, education, awards) list, `import_data` on a document
whose corresponding section holds arbitrary existing entries first
removes every existing entry node of that type and then inserts the new
entries one at a time; after the import the entries appear in the
section (and in a subsequent extraction) in REVERSE order of the input
list. -/
theorem C1_import_replaces_and_reverses
    (exps : List Experience) (projs : List Project) (edus : List Education) (awds : List Award)
    (es : List ExpIn) (ps : List ProjIn) (eds : List EduIn) (aws : List AwardIn) :
    (es ≠ [] →
      applyImport { experience := es } (expDoc exps)
          = some (expDoc ((es.map toExperience).reverse)) ∧
      (applyImport { experience := es } (expDoc exps)).map extractExperience
          = some (((es.map toExperience).map expOutOf).reverse)) ∧
    (ps ≠ [] →
      applyImport { projects := ps } (projDoc projs)
          = some (projDoc ((ps.map toProject).reverse)) ∧
      (applyImport { projects := ps } (projDoc projs)).map extractProjects
          = some (((ps.map toProject).map projOutOf).reverse)) ∧
    (eds ≠ [] →
      applyImport { education := eds } (eduDoc edus)
          = some (eduDoc ((eds.map toEducation).reverse)) ∧
      (applyImport { education := eds } (eduDoc edus)).map extractEducation
          = some (((eds.map toEducation).map eduOutOf).reverse)) ∧
    (aws ≠ [] →
      applyImport { awards := aws } (awardDoc awds)
          = some (awardDoc ((aws.map toAward).reverse)) ∧
      (applyImport { awards := aws } (awardDoc awds)).map extractAwards
          = some (((aws.map toAward).map awardOutOf).reverse)) := by
  refine ⟨fun h => ?_, fun h => ?_, fun h => ?_, fun h => ?_⟩
  · have hd : applyImport { experience := es } (expDoc exps)
        = some (impExperience es (expDoc exps)) := rfl
    rw [hd, impExperience_expDoc exps es h]
    refine ⟨rfl, ?_⟩
    rw [Option.map_some', extractExperience_expDoc, List.map_reverse]
  · have hd : applyImport { projects := ps } (projDoc projs)
        = some (impProjects ps (projDoc projs)) := rfl
    rw [hd, impProjects_projDoc projs ps h]
    refine ⟨rfl, ?_⟩
    rw [Option.map_some', extractProjects_projDoc, List.map_reverse]
  · have hd : applyImport { education := eds } (eduDoc edus)
        = some (impEducation eds (eduDoc edus)) := rfl
    rw [hd, impEducation_eduDoc edus eds h]
    refine ⟨rfl, ?_⟩
    rw [Option.map_some', extractEducation_eduDoc, List.map_reverse]
  · have hd : applyImport { awards := aws } (awardDoc awds)
        = some (impAwards aws (awardDoc awds)) := rfl
    rw [hd, impAwards_awardDoc awds aws h]
    refine ⟨rfl, ?_⟩
    rw [Option.map_some', extractAwards_awardDoc, List.map_reverse]

/-- C1 (witness): the amended statement applied at singleton inputs
over documents with one pre-existing entry per section. -/
theorem C1_import_replaces_and_reverses_witness :
    ([({ position := some "P" } : ExpIn)] ≠ [] ∧
      applyImport { experience := [{ position := some "P" }] } (expDoc [{ position := "old" }])
        = some (expDoc [toExperience { position := some "P" }])) ∧
    ([({ title := some "T" } : ProjIn)] ≠ [] ∧
      applyImport { projects := [{ title := some "T" }] } (projDoc [{ title := "old" }])
        = some (projDoc [toProject { title := some "T" }])) ∧
    ([({ degree := some "D" } : EduIn)] ≠ [] ∧
      applyImport { education := [{ degree := some "D" }] } (eduDoc [{ degree := "old" }])
        = some (eduDoc [toEducation { degree := some "D" }])) ∧
    ([({ title := some "A" } : AwardIn)] ≠ [] ∧
      applyImport { awards := [{ title := some "A" }] } (awardDoc [{ title := "old" }])
        = some (awardDoc [toAward { title := some "A" }])) :=
  ⟨⟨by decide,
     ((C1_import_replaces_and_reverses [{ position := "old" }] [] [] []
        [{ position := some "P" }] [] [] []).1 (by decide)).1⟩,
   ⟨by decide,
     ((C1_import_replaces_and_reverses [] [{ title := "old" }] [] []
        [] [{ title := some "T" }] [] []).2.1 (by decide)).1⟩,
   ⟨by decide,
     ((C1_import_replaces_and_reverses [] [] [{ degree := "old" }] []
        [] [] [{ degree := some "D" }] []).2.2.1 (by decide)).1⟩,
   ⟨by decide,
     ((C1_import_replaces_and_reverses [] [] [] [{ title := "old" }]
        [] [] [] [{ title := some "A" }]).2.2.2 (by decide)).1⟩⟩

/-- C2 (counterexample): `add_experience` with position `" Engineer"`
followed by extraction yields a first entry whose position is the
stripped `"Engineer"`, not `" Engineer"` — the fields are not equal to
the input's fields exactly. -/
theorem C2_counterexample :
    ((extractExperience (add_experience { position := " Engineer" } (expDoc []))).head?).map
        (fun r => r.position) ≠ some (some " Engineer") := by
  decide

/-- C2 (amended): for every Experience value `e` and document with a
valid Experience section holding arbitrary entries, extraction after
`add_experience e` yields the entry for `e` at position 0 (newest
first), its fields equal to `e`'s fields stripped of surrounding
whitespace (so equal exactly whenever `e`'s fields carry no surrounding
whitespace), followed by the previous extraction. -/
theorem C2_add_then_extract (e : Experience) (l : List Experience) :
    extractExperience (add_experience e (expDoc l))
      = expOutOf e :: extractExperience (expDoc l) := by
  rw [add_experience_expDoc, extractExperience_expDoc, extractExperience_expDoc]
  rfl

/-- C9: a project link dict lacking a `text` key produces an anchor
node whose display text is the fixed placeholder `"🔗 Link"` and whose
`href` is the given URL; `add_project` installs exactly that node in
the new entry. -/
theorem C9_link_placeholder (t st te d u : String) (l : List Project) :
    linkNode { url := some u }
      = .elem "a" ["project-link"] [("href", u), ("content", "true")] (textChild "🔗 Link") ∧
    add_project (Project.mk t st te d [{ url := some u }]) (projDoc l)
      = projDoc (Project.mk t st te d [{ url := some u }] :: l) ∧
    (projRead (newProjectItem (Project.mk t st te d [{ url := some u }]))).links
      = some [("🔗 Link", u)] := by
  refine ⟨rfl, add_project_projDoc _ l, ?_⟩
  rw [projRead_newProjectItem]
  rfl

/-! ## Step lemmas for `mutParent` with an opaque section mutation -/

theorem mutParent_elem_child (p : Node → Bool) (f : Node → Option Node)
    (t : String) (c : List String) (a : List (String × String)) (ch : Nodes)
    (h : mutParentL p f ch = .childHit) :
    mutParent p f (.elem t c a ch) = some (f (.elem t c a ch)) := by
  show (match mutParentL p f ch with
        | .nomatch => none
        | .childHit => some (f (.elem t c a ch))
        | .deepHit none => some none
        | .deepHit (some ch') => some (some (.elem t c a ch'))) = _
  rw [h]

theorem mutParent_elem_deep (p : Node → Bool) (f : Node → Option Node)
    (t : String) (c : List String) (a : List (String × String)) (ch : Nodes)
    (r : Nodes) (h : mutParentL p f ch = .deepHit (some r)) :
    mutParent p f (.elem t c a ch) = some (some (.elem t c a r)) := by
  show (match mutParentL p f ch with
        | .nomatch => none
        | .childHit => some (f (.elem t c a ch))
        | .deepHit none => some none
        | .deepHit (some ch') => some (some (.elem t c a ch'))) = _
  rw [h]

theorem mutParentL_cons_deep (p : Node → Bool) (f : Node → Option Node)
    (n : Node) (ns : Nodes) (r : Node)
    (hp : p n = false) (hn : mutParent p f n = some (some r)) :
    mutParentL p f (.cons n ns) = .deepHit (some (.cons r ns)) := by
  show (if p n then MutLRes.childHit
        else match mutParent p f n with
          | some none => MutLRes.deepHit none
          | some (some n') => MutLRes.deepHit (some (.cons n' ns))
          | none =>
            match mutParentL p f ns with
            | .nomatch => .nomatch
            | .childHit => .childHit
            | .deepHit none => .deepHit none
            | .deepHit (some ns') => .deepHit (some (.cons n ns'))) = _
  rw [hn]
  simp [hp]

/-- Locate-and-mutate over the skills fixture document: the located
parent is the Skills section, and the (possibly failing) mutation
result is wrapped back into the document shell. -/
theorem mutParent_skillsDoc (f : Node → Option Node) (langs fws tools : List String) (r : Node)
    (hf : f (skillsSection langs fws tools) = some r) :
    mutParent skillsHeading f (skillsDoc langs fws tools) = some (some (inBody r)) := by
  have e1 : mutParent skillsHeading f (skillsSection langs fws tools)
      = some (f (skillsSection langs fws tools)) :=
    mutParent_elem_child _ _ _ _ _ _ rfl
  rw [hf] at e1
  have e2 : mutParentL skillsHeading f (.cons (skillsSection langs fws tools) .nil)
      = .deepHit (some (.cons r .nil)) :=
    mutParentL_cons_deep _ _ _ _ _ rfl e1
  have e3 : mutParent skillsHeading f
        (.elem "body" [] [] (.cons (skillsSection langs fws tools) .nil))
      = some (some (.elem "body" [] [] (.cons r .nil))) :=
    mutParent_elem_deep _ _ _ _ _ _ _ e2
  have e4 : mutParentL skillsHeading f
        (.cons (.elem "body" [] [] (.cons (skillsSection langs fws tools) .nil)) .nil)
      = .deepHit (some (.cons (.elem "body" [] [] (.cons r .nil)) .nil)) :=
    mutParentL_cons_deep _ _ _ _ _ rfl e3
  exact mutParent_elem_deep _ _ _ _ _ _ _ e4

/-! ## Evaluation lemmas for the Skills section -/

theorem findAllN_isSkillCat_catNode (lbl : String) (tags : List String) :
    findAllN isSkillCat (skillCatNode lbl tags) = [] := by
  have h := findAllL_map_nil isSkillCat skillTagNode tags (fun x => rfl) (fun x => rfl)
  show findAllL isSkillCat (ofList (tags.map skillTagNode)) ++ [] = []
  rw [h]
  rfl

theorem findAllN_isSkillCat_gridNode (langs fws tools : List String) :
    findAllN isSkillCat (gridNode langs fws tools) =
      [skillCatNode "Programming Languages" langs,
       skillCatNode "Frameworks & Technologies" fws,
       skillCatNode "Tools & Platforms" tools] := by
  have e : findAllN isSkillCat (gridNode langs fws tools)
      = skillCatNode "Programming Languages" langs ::
          (findAllN isSkillCat (skillCatNode "Programming Languages" langs) ++
            (skillCatNode "Frameworks & Technologies" fws ::
              (findAllN isSkillCat (skillCatNode "Frameworks & Technologies" fws) ++
                (skillCatNode "Tools & Platforms" tools ::
                  (findAllN isSkillCat (skillCatNode "Tools & Platforms" tools) ++ []))))) := rfl
  rw [findAllN_isSkillCat_catNode, findAllN_isSkillCat_catNode,
    findAllN_isSkillCat_catNode] at e
  simpa using e

theorem catUpdate_langs (tags ls : List String) (hne : ls ≠ []) :
    catUpdate ⟨ls, [], []⟩ (skillCatNode "Programming Languages" tags)
      = some (skillCatNode "Programming Languages" ls) := by
  show (if ls = [] then some (skillCatNode "Programming Languages" tags)
        else some (updateFirst isSkillTags (setChildren (ofList (ls.map skillTagNode)))
          (skillCatNode "Programming Languages" tags)))
      = some (skillCatNode "Programming Languages" ls)
  rw [if_neg hne]
  rfl

theorem catUpdate_fws (tags fs : List String) (hne : fs ≠ []) :
    catUpdate ⟨[], fs, []⟩ (skillCatNode "Frameworks & Technologies" tags)
      = some (skillCatNode "Frameworks & Technologies" fs) := by
  show (if fs = [] then some (skillCatNode "Frameworks & Technologies" tags)
        else some (updateFirst isSkillTags (setChildren (ofList (fs.map skillTagNode)))
          (skillCatNode "Frameworks & Technologies" tags)))
      = some (skillCatNode "Frameworks & Technologies" fs)
  rw [if_neg hne]
  rfl

theorem catUpdate_tools (tags ts : List String) (hne : ts ≠ []) :
    catUpdate ⟨[], [], ts⟩ (skillCatNode "Tools & Platforms" tags)
      = some (skillCatNode "Tools & Platforms" ts) := by
  show (if ts = [] then some (skillCatNode "Tools & Platforms" tags)
        else some (updateFirst isSkillTags (setChildren (ofList (ts.map skillTagNode)))
          (skillCatNode "Tools & Platforms" tags)))
      = some (skillCatNode "Tools & Platforms" ts)
  rw [if_neg hne]
  rfl

theorem tmN_skillCatNode (f : Node → Node) (lbl : String) (tags : List String) :
    tmN isSkillCat f (skillCatNode lbl tags) = skillCatNode lbl tags := by
  have h := tmL_map_id isSkillCat f skillTagNode tags (fun x => rfl) (fun x => rfl)
  show Node.elem "div" ["skill-category"] []
      (.cons (.elem "h4" [] [] (textChild lbl))
        (.cons (.elem "div" ["skill-tags"] [] (tmL isSkillCat f (ofList (tags.map skillTagNode))))
          .nil)) = _
  rw [h]
  rfl

theorem skillsSectionUpdate_langs (langs fws tools ls : List String) (hne : ls ≠ []) :
    skillsSectionUpdate ⟨ls, [], []⟩ (skillsSection langs fws tools)
      = some (skillsSection ls fws tools) := by
  have hany : (findAllN isSkillCat (gridNode langs fws tools)).any
      (fun c => (catUpdate ⟨ls, [], []⟩ c).isNone) = false := by
    rw [findAllN_isSkillCat_gridNode]
    simp only [List.any_cons, List.any_nil]
    rw [catUpdate_langs langs ls hne]
    rfl
  show (if (findAllN isSkillCat (gridNode langs fws tools)).any
          (fun c => (catUpdate ⟨ls, [], []⟩ c).isNone)
        then (none : Option Node)
        else some (updateFirst isSkillsGrid
          (tmN isSkillCat (fun c => (catUpdate ⟨ls, [], []⟩ c).getD c))
          (skillsSection langs fws tools)))
      = some (skillsSection ls fws tools)
  rw [hany]
  simp only [Bool.false_eq_true, if_false]
  show some (Node.elem "div" ["section"] [] (.cons (h2Node "Skills") (.cons
      (Node.elem "div" ["skills-grid"] [] (.cons
        ((catUpdate (⟨ls, [], []⟩ : Skills) (tmN isSkillCat
            (fun c => (catUpdate (⟨ls, [], []⟩ : Skills) c).getD c)
            (skillCatNode "Programming Languages" langs))).getD
          (tmN isSkillCat (fun c => (catUpdate (⟨ls, [], []⟩ : Skills) c).getD c)
            (skillCatNode "Programming Languages" langs)))
        (.cons
          ((catUpdate (⟨ls, [], []⟩ : Skills) (tmN isSkillCat
              (fun c => (catUpdate (⟨ls, [], []⟩ : Skills) c).getD c)
              (skillCatNode "Frameworks & Technologies" fws))).getD
            (tmN isSkillCat (fun c => (catUpdate (⟨ls, [], []⟩ : Skills) c).getD c)
              (skillCatNode "Frameworks & Technologies" fws)))
          (.cons
            ((catUpdate (⟨ls, [], []⟩ : Skills) (tmN isSkillCat
                (fun c => (catUpdate (⟨ls, [], []⟩ : Skills) c).getD c)
                (skillCatNode "Tools & Platforms" tools))).getD
              (tmN isSkillCat (fun c => (catUpdate (⟨ls, [], []⟩ : Skills) c).getD c)
                (skillCatNode "Tools & Platforms" tools)))
            .nil)))) .nil)))
      = some (skillsSection ls fws tools)
  rw [tmN_skillCatNode, tmN_skillCatNode, tmN_skillCatNode, catUpdate_langs langs ls hne]
  rfl

theorem skillsSectionUpdate_fws (langs fws tools fs : List String) (hne : fs ≠ []) :
    skillsSectionUpdate ⟨[], fs, []⟩ (skillsSection langs fws tools)
      = some (skillsSection langs fs tools) := by
  have hany : (findAllN isSkillCat (gridNode langs fws tools)).any
      (fun c => (catUpdate ⟨[], fs, []⟩ c).isNone) = false := by
    rw [findAllN_isSkillCat_gridNode]
    simp only [List.any_cons, List.any_nil]
    rw [catUpdate_fws fws fs hne]
    rfl
  show (if (findAllN isSkillCat (gridNode langs fws tools)).any
          (fun c => (catUpdate ⟨[], fs, []⟩ c).isNone)
        then (none : Option Node)
        else some (updateFirst isSkillsGrid
          (tmN isSkillCat (fun c => (catUpdate ⟨[], fs, []⟩ c).getD c))
          (skillsSection langs fws tools)))
      = some (skillsSection langs fs tools)
  rw [hany]
  simp only [Bool.false_eq_true, if_false]
  show some (Node.elem "div" ["section"] [] (.cons (h2Node "Skills") (.cons
      (Node.elem "div" ["skills-grid"] [] (.cons
        ((catUpdate (⟨[], fs, []⟩ : Skills) (tmN isSkillCat
            (fun c => (catUpdate (⟨[], fs, []⟩ : Skills) c).getD c)
            (skillCatNode "Programming Languages" langs))).getD
          (tmN isSkillCat (fun c => (catUpdate (⟨[], fs, []⟩ : Skills) c).getD c)
            (skillCatNode "Programming Languages" langs)))
        (.cons
          ((catUpdate (⟨[], fs, []⟩ : Skills) (tmN isSkillCat
              (fun c => (catUpdate (⟨[], fs, []⟩ : Skills) c).getD c)
              (skillCatNode "Frameworks & Technologies" fws))).getD
            (tmN isSkillCat (fun c => (catUpdate (⟨[], fs, []⟩ : Skills) c).getD c)
              (skillCatNode "Frameworks & Technologies" fws)))
          (.cons
            ((catUpdate (⟨[], fs, []⟩ : Skills) (tmN isSkillCat
                (fun c => (catUpdate (⟨[], fs, []⟩ : Skills) c).getD c)
                (skillCatNode "Tools & Platforms" tools))).getD
              (tmN isSkillCat (fun c => (catUpdate (⟨[], fs, []⟩ : Skills) c).getD c)
                (skillCatNode "Tools & Platforms" tools)))
            .nil)))) .nil)))
      = some (skillsSection langs fs tools)
  rw [tmN_skillCatNode, tmN_skillCatNode, tmN_skillCatNode, catUpdate_fws fws fs hne]
  rfl

theorem skillsSectionUpdate_tools (langs fws tools ts : List String) (hne : ts ≠ []) :
    skillsSectionUpdate ⟨[], [], ts⟩ (skillsSection langs fws tools)
      = some (skillsSection langs fws ts) := by
  have hany : (findAllN isSkillCat (gridNode langs fws tools)).any
      (fun c => (catUpdate ⟨[], [], ts⟩ c).isNone) = false := by
    rw [findAllN_isSkillCat_gridNode]
    simp only [List.any_cons, List.any_nil]
    rw [catUpdate_tools tools ts hne]
    rfl
  show (if (findAllN isSkillCat (gridNode langs fws tools)).any
          (fun c => (catUpdate ⟨[], [], ts⟩ c).isNone)
        then (none : Option Node)
        else some (updateFirst isSkillsGrid
          (tmN isSkillCat (fun c => (catUpdate ⟨[], [], ts⟩ c).getD c))
          (skillsSection langs fws tools)))
      = some (skillsSection langs fws ts)
  rw [hany]
  simp only [Bool.false_eq_true, if_false]
  show some (Node.elem "div" ["section"] [] (.cons (h2Node "Skills") (.cons
      (Node.elem "div" ["skills-grid"] [] (.cons
        ((catUpdate (⟨[], [], ts⟩ : Skills) (tmN isSkillCat
            (fun c => (catUpdate (⟨[], [], ts⟩ : Skills) c).getD c)
            (skillCatNode "Programming Languages" langs))).getD
          (tmN isSkillCat (fun c => (catUpdate (⟨[], [], ts⟩ : Skills) c).getD c)
            (skillCatNode "Programming Languages" langs)))
        (.cons
          ((catUpdate (⟨[], [], ts⟩ : Skills) (tmN isSkillCat
              (fun c => (catUpdate (⟨[], [], ts⟩ : Skills) c).getD c)
              (skillCatNode "Frameworks & Technologies" fws))).getD
            (tmN isSkillCat (fun c => (catUpdate (⟨[], [], ts⟩ : Skills) c).getD c)
              (skillCatNode "Frameworks & Technologies" fws)))
          (.cons
            ((catUpdate (⟨[], [], ts⟩ : Skills) (tmN isSkillCat
                (fun c => (catUpdate (⟨[], [], ts⟩ : Skills) c).getD c)
                (skillCatNode "Tools & Platforms" tools))).getD
              (tmN isSkillCat (fun c => (catUpdate (⟨[], [], ts⟩ : Skills) c).getD c)
                (skillCatNode "Tools & Platforms" tools)))
            .nil)))) .nil)))
      = some (skillsSection langs fws ts)
  rw [tmN_skillCatNode, tmN_skillCatNode, tmN_skillCatNode, catUpdate_tools tools ts hne]
  rfl

theorem update_skills_skillsDoc_langs (langs fws tools ls : List String) (hne : ls ≠ []) :
    update_skills ⟨ls, [], []⟩ (skillsDoc langs fws tools) = some (skillsDoc ls fws tools) := by
  have hm := mutParent_skillsDoc (skillsSectionUpdate ⟨ls, [], []⟩) langs fws tools
    (skillsSection ls fws tools) (skillsSectionUpdate_langs langs fws tools ls hne)
  unfold update_skills
  rw [hm]
  rfl

theorem update_skills_skillsDoc_fws (langs fws tools fs : List String) (hne : fs ≠ []) :
    update_skills ⟨[], fs, []⟩ (skillsDoc langs fws tools) = some (skillsDoc langs fs tools) := by
  have hm := mutParent_skillsDoc (skillsSectionUpdate ⟨[], fs, []⟩) langs fws tools
    (skillsSection langs fs tools) (skillsSectionUpdate_fws langs fws tools fs hne)
  unfold update_skills
  rw [hm]
  rfl

theorem update_skills_skillsDoc_tools (langs fws tools ts : List String) (hne : ts ≠ []) :
    update_skills ⟨[], [], ts⟩ (skillsDoc langs fws tools) = some (skillsDoc langs fws ts) := by
  have hm := mutParent_skillsDoc (skillsSectionUpdate ⟨[], [], ts⟩) langs fws tools
    (skillsSection langs fws ts) (skillsSectionUpdate_tools langs fws tools ts hne)
  unfold update_skills
  rw [hm]
  rfl

theorem skillCatRead_langs (acc : SkillsOut) (tags : List String) :
    skillCatRead acc (skillCatNode "Programming Languages" tags)
      = { acc with programming_languages := tags.map pystrip } := by
  have h := findAllL_map_self isSkillTag skillTagNode tags (fun x => rfl) (fun x => rfl)
  show ({ acc with programming_languages :=
      ((findAllL isSkillTag (ofList (tags.map skillTagNode)) ++ []).map
        (fun t => pystrip (getText t))) } : SkillsOut) = _
  rw [h, List.append_nil, List.map_map]
  rfl

theorem skillCatRead_fws (acc : SkillsOut) (tags : List String) :
    skillCatRead acc (skillCatNode "Frameworks & Technologies" tags)
      = { acc with frameworks := tags.map pystrip } := by
  have e : skillCatRead acc (skillCatNode "Frameworks & Technologies" tags)
      = { acc with frameworks := ((findAllN isSkillTag
          (skillCatNode "Frameworks & Technologies" tags)).map
            (fun t => pystrip (getText t))) } := rfl
  have h2 : findAllN isSkillTag (skillCatNode "Frameworks & Technologies" tags)
      = findAllL isSkillTag (ofList (tags.map skillTagNode)) ++ [] := rfl
  rw [e, h2, findAllL_map_self isSkillTag skillTagNode tags (fun x => rfl) (fun x => rfl),
    List.append_nil, List.map_map]
  rfl

theorem skillCatRead_tools (acc : SkillsOut) (tags : List String) :
    skillCatRead acc (skillCatNode "Tools & Platforms" tags)
      = { acc with tools := tags.map pystrip } := by
  have e : skillCatRead acc (skillCatNode "Tools & Platforms" tags)
      = { acc with tools := ((findAllN isSkillTag
          (skillCatNode "Tools & Platforms" tags)).map
            (fun t => pystrip (getText t))) } := rfl
  have h2 : findAllN isSkillTag (skillCatNode "Tools & Platforms" tags)
      = findAllL isSkillTag (ofList (tags.map skillTagNode)) ++ [] := rfl
  rw [e, h2, findAllL_map_self isSkillTag skillTagNode tags (fun x => rfl) (fun x => rfl),
    List.append_nil, List.map_map]
  rfl

theorem extractSkills_skillsDoc (langs fws tools : List String) :
    extractSkills (skillsDoc langs fws tools)
      = { programming_languages := langs.map pystrip, frameworks := fws.map pystrip,
          tools := tools.map pystrip } := by
  have e : findAllN isSkillCat (skillsDoc langs fws tools)
      = ((findAllN isSkillCat (gridNode langs fws tools) ++ []) ++ []) ++ [] := rfl
  rw [findAllN_isSkillCat_gridNode] at e
  simp only [List.append_nil] at e
  unfold extractSkills
  rw [e]
  simp only [List.foldl_cons, List.foldl_nil]
  rw [skillCatRead_langs, skillCatRead_fws, skillCatRead_tools]

/-- C3: the claim says a missing expected sub-node inside a found
container is non-fatal for mutators; but `update_skills` with a
non-empty `programming_languages` input on a document whose recognised
`Programming Languages` category block lacks a `div.skill-tags`
sub-node raises (`skill_tags` is `None` and `skill_tags.clear()`
throws `AttributeError`), modelled here by the `none` result. -/
theorem C3_missing_skill_tags_raises :
    update_skills { programming_languages := ["Python"] } skillsNoTagsDoc = none := rfl

/-- C4: replacing exactly one non-empty skill category rebuilds only
that category's tag block (one tag per input string, in input order —
the updated document is literally the fixture with that category's tag
list swapped), and the other two categories, as seen by a subsequent
extraction, are identical to their pre-call values. -/
theorem C4_replaceSkills_frame (langs fws tools ls fs ts : List String) :
    (ls ≠ [] →
      update_skills ⟨ls, [], []⟩ (skillsDoc langs fws tools) = some (skillsDoc ls fws tools) ∧
      (extractSkills (skillsDoc ls fws tools)).frameworks
          = (extractSkills (skillsDoc langs fws tools)).frameworks ∧
      (extractSkills (skillsDoc ls fws tools)).tools
          = (extractSkills (skillsDoc langs fws tools)).tools) ∧
    (fs ≠ [] →
      update_skills ⟨[], fs, []⟩ (skillsDoc langs fws tools) = some (skillsDoc langs fs tools) ∧
      (extractSkills (skillsDoc langs fs tools)).programming_languages
          = (extractSkills (skillsDoc langs fws tools)).programming_languages ∧
      (extractSkills (skillsDoc langs fs tools)).tools
          = (extractSkills (skillsDoc langs fws tools)).tools) ∧
    (ts ≠ [] →
      update_skills ⟨[], [], ts⟩ (skillsDoc langs fws tools) = some (skillsDoc langs fws ts) ∧
      (extractSkills (skillsDoc langs fws ts)).programming_languages
          = (extractSkills (skillsDoc langs fws tools)).programming_languages ∧
      (extractSkills (skillsDoc langs fws ts)).frameworks
          = (extractSkills (skillsDoc langs fws tools)).frameworks) := by
  refine ⟨fun h => ?_, fun h => ?_, fun h => ?_⟩
  · refine ⟨update_skills_skillsDoc_langs langs fws tools ls h, ?_, ?_⟩ <;>
      rw [extractSkills_skillsDoc, extractSkills_skillsDoc]
  · refine ⟨update_skills_skillsDoc_fws langs fws tools fs h, ?_, ?_⟩ <;>
      rw [extractSkills_skillsDoc, extractSkills_skillsDoc]
  · refine ⟨update_skills_skillsDoc_tools langs fws tools ts h, ?_, ?_⟩ <;>
      rw [extractSkills_skillsDoc, extractSkills_skillsDoc]

/-- C4 (witness): the frame statement applied at concrete one-element
inputs over a concrete three-category document. -/
theorem C4_replaceSkills_frame_witness :
    ((["Rust"] : List String) ≠ [] ∧
      update_skills ⟨["Rust"], [], []⟩ (skillsDoc ["a"] ["b"] ["c"])
        = some (skillsDoc ["Rust"] ["b"] ["c"])) ∧
    ((["React"] : List String) ≠ [] ∧
      update_skills ⟨[], ["React"], []⟩ (skillsDoc ["a"] ["b"] ["c"])
        = some (skillsDoc ["a"] ["React"] ["c"])) ∧
    ((["Git"] : List String) ≠ [] ∧
      update_skills ⟨[], [], ["Git"]⟩ (skillsDoc ["a"] ["b"] ["c"])
        = some (skillsDoc ["a"] ["b"] ["Git"])) :=
  ⟨⟨by decide, ((C4_replaceSkills_frame ["a"] ["b"] ["c"] ["Rust"] [] []).1 (by decide)).1⟩,
   ⟨by decide, ((C4_replaceSkills_frame ["a"] ["b"] ["c"] [] ["React"] []).2.1 (by decide)).1⟩,
   ⟨by decide, ((C4_replaceSkills_frame ["a"] ["b"] ["c"] [] [] ["Git"]).2.2 (by decide)).1⟩⟩

/-- C6: when no heading in the document satisfies the awards filter
(which requires both `"Awards"` and `"Achievements"` as substrings —
in particular when only one of them occurs in any heading), the
section locator returns `none` and the awards operations are skipped:
`add_award` leaves the document unchanged and the awards import step
does nothing. -/
theorem C6_awards_needs_both_substrings (doc : Node) (a : Award) (l : List AwardIn)
    (h : findAllN awardsHeading doc = []) :
    locN awardsHeading doc = none ∧ add_award a doc = doc ∧ impAwards l doc = doc := by
  have hloc := locN_none_of_findAllN awardsHeading doc h
  refine ⟨hloc, ?_, ?_⟩
  · unfold add_award
    rw [mutParent_none_of_locN _ _ _ hloc]
  · unfold impAwards
    cases l with
    | nil => rfl
    | cons x xs =>
      rw [if_neg (by simp : ¬(x :: xs : List AwardIn) = []),
        mutParent_none_of_locN _ _ _ hloc]

/-- C6 (witness): a document whose only heading reads `"Awards"` —
containing one of the two required substrings but not the other — is
left untouched by the awards operations. -/
theorem C6_awards_needs_both_substrings_witness :
    findAllN awardsHeading awardsOneWordDoc = [] ∧
    locN awardsHeading awardsOneWordDoc = none ∧
    add_award { title := "T" } awardsOneWordDoc = awardsOneWordDoc ∧
    impAwards [{ title := some "T" }] awardsOneWordDoc = awardsOneWordDoc := by
  have h := C6_awards_needs_both_substrings awardsOneWordDoc { title := "T" }
    [{ title := some "T" }] rfl
  exact ⟨rfl, h.1, h.2.1, h.2.2⟩

/-- C8: when a section's heading cannot be located, every operation
targeting that section is a complete no-op on the document: the four
`add_*` entry operations and `update_skills` return the document tree
unchanged (and without raising — totality of the functions, `some` for
the fallible one), and the experience import step skips the category. -/
theorem C8_missing_heading_noop (doc : Node) (e : Experience) (p : Project)
    (ed : Education) (a : Award) (sk : Skills) (es : List ExpIn) :
    (locN expHeading doc = none →
      add_experience e doc = doc ∧ impExperience es doc = doc) ∧
    (locN projHeading doc = none → add_project p doc = doc) ∧
    (locN eduHeading doc = none → add_education ed doc = doc) ∧
    (locN awardsHeading doc = none → add_award a doc = doc) ∧
    (locN skillsHeading doc = none → update_skills sk doc = some doc) := by
  refine ⟨fun h => ⟨?_, ?_⟩, fun h => ?_, fun h => ?_, fun h => ?_, fun h => ?_⟩
  · unfold add_experience
    rw [mutParent_none_of_locN _ _ _ h]
  · unfold impExperience
    cases es with
    | nil => rfl
    | cons x xs =>
      rw [if_neg (by simp : ¬(x :: xs : List ExpIn) = []),
        mutParent_none_of_locN _ _ _ h]
  · unfold add_project
    rw [mutParent_none_of_locN _ _ _ h]
  · unfold add_education
    rw [mutParent_none_of_locN _ _ _ h]
  · unfold add_award
    rw [mutParent_none_of_locN _ _ _ h]
  · unfold update_skills
    rw [mutParent_none_of_locN _ _ _ h]

/-- C8 (witness): on a document with no recognised headings at all,
every section operation is the identity. -/
theorem C8_missing_heading_noop_witness :
    locN expHeading bareDoc = none ∧ locN projHeading bareDoc = none ∧
    locN eduHeading bareDoc = none ∧ locN awardsHeading bareDoc = none ∧
    locN skillsHeading bareDoc = none ∧
    add_experience { position := "P" } bareDoc = bareDoc ∧
    impExperience [{ position := some "P" }] bareDoc = bareDoc ∧
    add_project { title := "T" } bareDoc = bareDoc ∧
    add_education { degree := "D" } bareDoc = bareDoc ∧
    add_award { title := "A" } bareDoc = bareDoc ∧
    update_skills { programming_languages := ["X"] } bareDoc = some bareDoc := by
  have h := C8_missing_heading_noop bareDoc { position := "P" } { title := "T" }
    { degree := "D" } { title := "A" } { programming_languages := ["X"] }
    [{ position := some "P" }]
  exact ⟨rfl, rfl, rfl, rfl, rfl, (h.1 rfl).1, (h.1 rfl).2, h.2.1 rfl, h.2.2.1 rfl,
    h.2.2.2.1 rfl, h.2.2.2.2 rfl⟩

/-- C7: extraction reads the email and phone contact fields from the
matched editable node's display text (whitespace-stripped), and the
linkedin and github fields from the matched link's `href` attribute —
not from its display text (the display texts `liT`/`ghT` do not occur
in the result, the raw `href` values do). -/
theorem C7_contact_read_asymmetry (nm ti ad emT emH ph liT liH ghT ghH : String) :
    (extractContact (contactDoc nm ti ad emT emH ph liT liH ghT ghH)).email
        = some (pystrip emT) ∧
    (extractContact (contactDoc nm ti ad emT emH ph liT liH ghT ghH)).phone
        = some (pystrip ph) ∧
    (extractContact (contactDoc nm ti ad emT emH ph liT liH ghT ghH)).linkedin
        = some liH ∧
    (extractContact (contactDoc nm ti ad emT emH ph liT liH ghT ghH)).github
        = some ghH :=
  ⟨rfl, rfl, rfl, rfl⟩

/-! ## Contact update evaluation -/

theorem contactItemUpdate_email (e t h : String) (he : e ≠ "") :
    contactItemUpdate { email := e } (contactItemN "📧" (aEditable t h))
      = contactItemN "📧" (aEditable e ("mailto:" ++ e)) := by
  show (if e = "" then contactItemN "📧" (aEditable t h)
        else updateFirst aContent
          (fun n => setAttr "href" ("mailto:" ++ e) (setString e n))
          (contactItemN "📧" (aEditable t h)))
      = contactItemN "📧" (aEditable e ("mailto:" ++ e))
  rw [if_neg he]
  rfl

theorem update_contact_email_doc (nm ti ad emT emH ph liT liH ghT ghH e : String) (he : e ≠ "") :
    update_contact_info { email := e } (contactDoc nm ti ad emT emH ph liT liH ghT ghH)
      = contactDoc nm ti ad e ("mailto:" ++ e) ph liT liH ghT ghH := by
  have hit := contactItemUpdate_email e emT emH he
  have e0 : update_contact_info { email := e } (contactDoc nm ti ad emT emH ph liT liH ghT ghH)
      = .elem "html" [] [] (ofList [
          .elem "body" [] [] (ofList [
            .elem "div" ["header"] [] (ofList [
              .elem "h1" ["name"] [("content", "true")] (textChild nm),
              .elem "p" ["title"] [("content", "true")] (textChild ti),
              .elem "div" ["contact-info"] [] (ofList [
                contactItemN "📍" (spanEditable ad),
                contactItemUpdate { email := e } (contactItemN "📧" (aEditable emT emH)),
                contactItemN "📱" (spanEditable ph),
                contactItemN "🔗" (aEditable liT liH),
                contactItemN "💻" (aEditable ghT ghH)])])])]) := rfl
  rw [e0, hit]
  rfl

/-- C5: updating contact info with only the email field set modifies
only the email node — its display text becomes the email and its link
target becomes `mailto:` plus the email (the updated document is
literally the fixture with those two slots swapped) — and a subsequent
extraction returns name, title, address, phone, linkedin and github
values identical to their pre-call values. -/
theorem C5_email_sparse_patch (nm ti ad emT emH ph liT liH ghT ghH e : String) (he : e ≠ "") :
    update_contact_info { email := e } (contactDoc nm ti ad emT emH ph liT liH ghT ghH)
        = contactDoc nm ti ad e ("mailto:" ++ e) ph liT liH ghT ghH ∧
    extractContact (update_contact_info { email := e }
        (contactDoc nm ti ad emT emH ph liT liH ghT ghH))
        = { extractContact (contactDoc nm ti ad emT emH ph liT liH ghT ghH) with
            email := some (pystrip e) } := by
  have h1 := update_contact_email_doc nm ti ad emT emH ph liT liH ghT ghH e he
  refine ⟨h1, ?_⟩
  rw [h1]
  rfl

/-- C5 (witness): the sparse email patch at concrete values. -/
theorem C5_email_sparse_patch_witness :
    ("e@x" : String) ≠ "" ∧
    update_contact_info { email := "e@x" }
        (contactDoc "N" "T" "A" "E" "H" "P" "LT" "LH" "GT" "GH")
      = contactDoc "N" "T" "A" "e@x" "mailto:e@x" "P" "LT" "LH" "GT" "GH" := by
  have h := C5_email_sparse_patch "N" "T" "A" "E" "H" "P" "LT" "LH" "GT" "GH" "e@x" (by decide)
  exact ⟨by decide, h.1⟩

/-! ## Always-present keys in extraction -/

theorem contactItemRead_name (acc : ContactOut) (it : Node) :
    (contactItemRead acc it).name = acc.name := by
  unfold contactItemRead
  split
  · rfl
  · dsimp only
    split_ifs <;> first | rfl | (split <;> rfl)

theorem contactItemRead_title (acc : ContactOut) (it : Node) :
    (contactItemRead acc it).title = acc.title := by
  unfold contactItemRead
  split
  · rfl
  · dsimp only
    split_ifs <;> first | rfl | (split <;> rfl)

theorem foldl_contactItemRead_name (items : List Node) (acc : ContactOut) :
    (items.foldl contactItemRead acc).name = acc.name := by
  induction items generalizing acc with
  | nil => rfl
  | cons x xs ih => rw [List.foldl_cons, ih, contactItemRead_name]

theorem foldl_contactItemRead_title (items : List Node) (acc : ContactOut) :
    (items.foldl contactItemRead acc).title = acc.title := by
  induction items generalizing acc with
  | nil => rfl
  | cons x xs ih => rw [List.foldl_cons, ih, contactItemRead_title]

/-- C10: on every document, the extracted contact record always carries
the `name` and `title` keys, each equal to the empty string when the
corresponding node is absent, and every extracted project record
always carries the `links` key, equal to the empty list when the
project item has no link anchors — these fields are never omitted,
unlike the other optional fields. -/
theorem C10_always_present_keys (doc : Node) :
    (extractContact doc).name.isSome = true ∧
    (extractContact doc).title.isSome = true ∧
    (findFirst (isTagClass "h1" "name") doc = none → (extractContact doc).name = some "") ∧
    (findFirst (isTagClass "p" "title") doc = none → (extractContact doc).title = some "") ∧
    (∀ pr ∈ extractProjects doc, pr.links.isSome = true) ∧
    (∀ item ∈ findAllN isProjItem doc,
      findAllN isProjLink item = [] → (projRead item).links = some []) := by
  have hn : (extractContact doc).name
      = some (((findFirst (isTagClass "h1" "name") doc).map
          (fun n => pystrip (getText n))).getD "") := by
    unfold extractContact
    rw [foldl_contactItemRead_name]
  have ht : (extractContact doc).title
      = some (((findFirst (isTagClass "p" "title") doc).map
          (fun n => pystrip (getText n))).getD "") := by
    unfold extractContact
    rw [foldl_contactItemRead_title]
  refine ⟨by rw [hn]; rfl, by rw [ht]; rfl, ?_, ?_, ?_, ?_⟩
  · intro h
    rw [hn, h]
    rfl
  · intro h
    rw [ht, h]
    rfl
  · intro pr hpr
    unfold extractProjects at hpr
    rcases List.mem_map.mp hpr with ⟨x, _, rfl⟩
    rfl
  · intro item _ hlinks
    unfold projRead
    rw [hlinks]
    rfl

/-- C10 (witness): the statement applied to a document lacking the
name and title nodes and containing one project without link
anchors. -/
theorem C10_always_present_keys_witness :
    (extractContact (projDoc [{ title := "T" }])).name.isSome = true ∧
    (extractContact (projDoc [{ title := "T" }])).title.isSome = true ∧
    (findFirst (isTagClass "h1" "name") (projDoc [{ title := "T" }]) = none ∧
      (extractContact (projDoc [{ title := "T" }])).name = some "") ∧
    (findFirst (isTagClass "p" "title") (projDoc [{ title := "T" }]) = none ∧
      (extractContact (projDoc [{ title := "T" }])).title = some "") ∧
    (projOutOf { title := "T" } ∈ extractProjects (projDoc [{ title := "T" }]) ∧
      (projOutOf { title := "T" }).links.isSome = true) ∧
    (newProjectItem { title := "T" } ∈ findAllN isProjItem (projDoc [{ title := "T" }]) ∧
      findAllN isProjLink (newProjectItem { title := "T" }) = [] ∧
      (projRead (newProjectItem { title := "T" })).links = some []) := by
  have h := C10_always_present_keys (projDoc [{ title := "T" }])
  have hmem : newProjectItem { title := "T" }
      ∈ findAllN isProjItem (projDoc [{ title := "T" }]) := by
    have e : findAllN isProjItem (projDoc [{ title := "T" }])
        = [newProjectItem { title := "T" }] := rfl
    rw [e]
    exact List.mem_singleton_self _
  exact ⟨h.1, h.2.1, ⟨rfl, h.2.2.1 rfl⟩, ⟨rfl, h.2.2.2.1 rfl⟩,
    ⟨by decide, h.2.2.2.2.1 _ (by decide)⟩,
    ⟨hmem, rfl, h.2.2.2.2.2 _ hmem rfl⟩⟩
